import Mathlib

/-!
Shallow embedding of the density-to-structure fitting engine of
liGAN's `generate.py`.

Modelling conventions:
* NumPy floating-point arithmetic is modelled over the real numbers `ℝ`.
* A 3-d point (a NumPy row of three floats) is `Pt := Fin 3 → ℝ`.
* A multi-channel grid of side `D` is a function `Fin nc → Fin D → Fin D → Fin D → ℝ`;
  the flat point-cloud view is a `List` in `np.ndindex` (row-major) order.
* Arrays of atoms are `Fin n`-indexed functions; appending an atom is `Fin.snoc`.
* `np.inf` initialisations of scalars that are only ever compared and replaced
  (`loss = np.inf`, `ll = -np.inf`, `loss_best = np.inf`) are modelled by
  `Option ℝ` with `none` standing for the infinite initial value.
* The unbounded `while True:` loops are modelled by structural recursion:
  the inner fitter loops burn exactly the source's own `max_iter` budget
  (`i == max_iter` break), and the outer greedy loop of `fit_atoms_to_grids`
  takes an explicit `fuel` and returns `none` when it is exhausted.
* `np.isclose(dist, 0)` (atol `1e-8`, rtol `1e-5`, reference value `0`) is
  `dist ≤ 1 / 100000000`, since `dist = sqrt(...) ≥ 0`.
-/

open Real

noncomputable section

open Classical

/-- A 3-d point: a NumPy row of three floats. -/
abbrev Pt : Type := Fin 3 → ℝ

/-- `np.sum((points - atom_pos)**2, axis=1)` for a single point: squared
euclidean distance between two points. -/
def dist2 (p q : Pt) : ℝ := ∑ i, (p i - q i) ^ 2

/-- `get_atom_density` (generate.py lines 18-30), evaluated at one point.
Piecewise radial density of one atom: zero for `dist >= radius_multiple * atom_radius`,
a Gaussian for `dist <= atom_radius`, and the quadratic shoulder
`dist2*ie2/h**2 - 6*dist*ie2/h + 9*ie2` in between, with `h = 0.5*atom_radius`
and `ie2 = exp(-2)`. -/
def get_atom_density (atom_pos : Pt) (atom_radius : ℝ) (p : Pt) (radius_multiple : ℝ) : ℝ :=
  let d2 := dist2 p atom_pos
  let dist := Real.sqrt d2
  let h := 0.5 * atom_radius
  let ie2 := Real.exp (-2)
  if radius_multiple * atom_radius ≤ dist then 0
  else if dist ≤ atom_radius then Real.exp (-d2 / (2 * h ^ 2))
  else d2 * ie2 / h ^ 2 - 6 * dist * ie2 / h + 9 * ie2

/-- The radial profile of `get_atom_density` as a function of the distance
(the source computes every branch through `dist = sqrt(dist2)` only, so the
density is a function of the distance; `atom_density_radial r m (dist p q)`
equals `get_atom_density q r p m`, see `get_atom_density_eq_radial`). -/
def atom_density_radial (atom_radius radius_multiple d : ℝ) : ℝ :=
  let h := 0.5 * atom_radius
  let ie2 := Real.exp (-2)
  if radius_multiple * atom_radius ≤ d then 0
  else if d ≤ atom_radius then Real.exp (-d ^ 2 / (2 * h ^ 2))
  else d ^ 2 * ie2 / h ^ 2 - 6 * d * ie2 / h + 9 * ie2

/-- `get_atom_gradient` (lines 33-47), evaluated at one point: derivative of
the atom's density with respect to the point, with the extra zero region
`np.isclose(dist, 0)` killing the removable singularity at the center. -/
def get_atom_gradient (atom_pos : Pt) (atom_radius : ℝ) (p : Pt) (radius_multiple : ℝ) : Pt :=
  let diff : Pt := p - atom_pos
  let d2 := dist2 p atom_pos
  let dist := Real.sqrt d2
  let h := 0.5 * atom_radius
  let ie2 := Real.exp (-2)
  let zero_cond : Prop := radius_multiple * atom_radius ≤ dist ∨ dist ≤ 1 / 100000000
  let gauss_val := -dist / h ^ 2 * Real.exp (-d2 / (2 * h ^ 2))
  let quad_val := 2 * dist * ie2 / h ^ 2 - 6 * ie2 / h
  fun ax => -diff ax * (if zero_cond then 0
    else (if dist ≤ atom_radius then gauss_val else quad_val) / dist)

/-- `get_bond_length_energy` (lines 50-55): Morse-like pair potential
`(1 - exp(bond_length - distance))**2 * bonds`. -/
def get_bond_length_energy (distance bond_length bonds : ℝ) : ℝ :=
  (1 - Real.exp (bond_length - distance)) ^ 2 * bonds

/-- `get_bond_length_gradient` (lines 58-64):
`2 * (1 - exp) * exp * bonds` with `exp = exp(bond_length - distance)`. -/
def get_bond_length_gradient (distance bond_length bonds : ℝ) : ℝ :=
  2 * (1 - Real.exp (bond_length - distance)) * Real.exp (bond_length - distance) * bonds

/-- The grid origin `center - resolution*(shape - 1)/2` of `get_grid_points`
(lines 266-275), for a cubic grid of side `D`. -/
def grid_origin (D : ℕ) (center : Pt) (resolution : ℝ) : Pt :=
  fun ax => center ax - resolution * ((D : ℝ) - 1) / 2

/-- The world-space coordinates `origin + resolution*index` of the voxel with
index `(i, j, k)`. -/
def pointOfIdx (D : ℕ) (center : Pt) (resolution : ℝ) (i j k : Fin D) : Pt :=
  fun ax => grid_origin D center resolution ax + resolution * (![(i : ℝ), (j : ℝ), (k : ℝ)] ax)

/-- `get_grid_points` (lines 266-275): the list of all voxel-center
coordinates in `np.ndindex` (row-major `(i, j, k)`) order. -/
def get_grid_points (D : ℕ) (center : Pt) (resolution : ℝ) : List Pt :=
  (List.finRange D).flatMap fun i =>
    (List.finRange D).flatMap fun j =>
      (List.finRange D).map fun k => pointOfIdx D center resolution i j k

/-- The estimated point-spread function `h` of `wiener_deconv_grid` before the
circular shift (line 243): the density kernel rendered for a single atom
placed at `center + resolution/2`. -/
def wiener_psf_preroll (D : ℕ) (center : Pt) (resolution atom_radius radius_multiple : ℝ)
    (i j k : Fin D) : ℝ :=
  get_atom_density (fun ax => center ax + resolution / 2) atom_radius
    (pointOfIdx D center resolution i j k) radius_multiple

/-- Index map of `np.roll(h, shift=(12,12,12), axis=(0,1,2))` (line 244) on one
axis: the output at index `i` reads the input at index `(i - 12) mod D`. -/
def rollIdx (D : ℕ) (i : Fin D) : Fin D :=
  ⟨(i.val + 12 * D - 12) % D, Nat.mod_lt _ i.pos⟩

/-- The point-spread function `h` of `wiener_deconv_grid` after the hardcoded
circular shift by `(12,12,12)` (line 244). -/
def wiener_deconv_psf (D : ℕ) (center : Pt) (resolution atom_radius radius_multiple : ℝ)
    (i j k : Fin D) : ℝ :=
  wiener_psf_preroll D center resolution atom_radius radius_multiple
    (rollIdx D i) (rollIdx D j) (rollIdx D k)

/-- The 3-d discrete Fourier transform computed by `np.fft.fftn` on a cubic
grid of side `D`. -/
def dft3 (D : ℕ) (f : Fin D → Fin D → Fin D → ℂ) (k1 k2 k3 : Fin D) : ℂ :=
  ∑ n1, ∑ n2, ∑ n3, f n1 n2 n3 *
    Complex.exp (-2 * (Real.pi : ℂ) * Complex.I *
      (((k1 : ℕ) * (n1 : ℕ) + (k2 : ℕ) * (n2 : ℕ) + (k3 : ℕ) * (n3 : ℕ) : ℕ) : ℂ) / (D : ℂ))

/-- The inverse 3-d discrete Fourier transform computed by `np.fft.ifftn`. -/
def idft3 (D : ℕ) (f : Fin D → Fin D → Fin D → ℂ) (n1 n2 n3 : Fin D) : ℂ :=
  (1 / (D : ℂ) ^ 3) * ∑ k1, ∑ k2, ∑ k3, f k1 k2 k3 *
    Complex.exp (2 * (Real.pi : ℂ) * Complex.I *
      (((k1 : ℕ) * (n1 : ℕ) + (k2 : ℕ) * (n2 : ℕ) + (k3 : ℕ) * (n3 : ℕ) : ℕ) : ℂ) / (D : ℂ))

/-- `wiener_deconv_grid` (lines 236-254): Wiener deconvolution of one channel
grid by the estimated point-spread function,
`F(g) = conj(F(h)) / (F(h) conj(F(h)) + noise_ratio)`, real part of the
inverse transform. -/
def wiener_deconv_grid (D : ℕ) (grid : Fin D → Fin D → Fin D → ℝ) (center : Pt)
    (resolution atom_radius radius_multiple noise_ratio : ℝ) :
    Fin D → Fin D → Fin D → ℝ :=
  let h := wiener_deconv_psf D center resolution atom_radius radius_multiple
  let Fh := dft3 D fun a b c => (h a b c : ℂ)
  let Fgrid := dft3 D fun a b c => (grid a b c : ℂ)
  let Fg := fun a b c =>
    (starRingEnd ℂ) (Fh a b c) / (Fh a b c * (starRingEnd ℂ) (Fh a b c) + (noise_ratio : ℂ))
  fun a b c => (idft3 D (fun x y z => Fgrid x y z * Fg x y z) a b c).re

/-- `wiener_deconv_grids` (lines 257-263): per-channel Wiener deconvolution,
with each channel's radius scaled by `radius_factor`. -/
def wiener_deconv_grids (nc D : ℕ) (grids : Fin nc → Fin D → Fin D → Fin D → ℝ)
    (radii : Fin nc → ℝ) (center : Pt)
    (resolution radius_multiple noise_ratio radius_factor : ℝ) :
    Fin nc → Fin D → Fin D → Fin D → ℝ :=
  fun ch => wiener_deconv_grid D (grids ch) center resolution
    (radii ch * radius_factor) radius_multiple noise_ratio

section GD

variable {nc : ℕ} (points : List Pt) (density : List (Fin nc → ℝ))
variable {n : ℕ} (c : Fin n → Fin nc) (bonds : Fin n → Fin n → ℝ)
variable (atom_radius : Fin nc → ℝ) (radius_multiple : ℝ)
variable (lr mo lambda_E radius_factor : ℝ)

/-- Predicted density of the current atom set at one point, per channel
(lines 183-186): each atom adds its kernel, rendered with radius
`radius_factor * atom_radius[c[j]]`, into its own channel. -/
def densityPredAt (xyz : Fin n → Pt) (p : Pt) : Fin nc → ℝ :=
  fun ch => ∑ j, if c j = ch then
    get_atom_density (xyz j) (radius_factor * atom_radius (c j)) p radius_multiple else 0

/-- `bond_length[j,k] = atom_radius[c[j]] + atom_radius[c[k]]` (line 174);
note it uses the unscaled radius, not `radius_factor * radius`. -/
def gdBondLength (j k : Fin n) : ℝ := atom_radius (c j) + atom_radius (c k)

/-- `xyz_dist[j,k]`: euclidean distance between atoms `j` and `k` (line 194). -/
def xyzDist (xyz : Fin n → Pt) (j k : Fin n) : ℝ := Real.sqrt (dist2 (xyz j) (xyz k))

/-- The L2 part of the loss: `np.sum(density_diff**2)/2` (lines 187-188). -/
def gdL2 (xyz : Fin n → Pt) : ℝ :=
  (((points.zip density).map fun q =>
    ∑ ch, (densityPredAt c atom_radius radius_multiple radius_factor xyz q.1 ch - q.2 ch) ^ 2).sum) / 2

/-- The interatomic-energy part of the loss (lines 191-196): computed only
when `lambda_E` is truthy, as `lambda_E` times the sum of
`get_bond_length_energy` over the pairs `j < k`. -/
def gdE (xyz : Fin n → Pt) : ℝ :=
  if lambda_E = 0 then 0 else
    lambda_E * ∑ j, ∑ k, if j < k then
      get_bond_length_energy (xyzDist xyz j k) (gdBondLength c atom_radius j k) (bonds j k)
    else 0

/-- The loss `L2 + E` minimized by `fit_atoms_by_GD` (line 206). -/
def gdLoss (xyz : Fin n → Pt) : ℝ :=
  gdL2 points density c atom_radius radius_multiple radius_factor xyz
    + gdE c bonds atom_radius lambda_E xyz

/-- One pair's bond force on atom `j` from atom `k > j` (lines 225-226).
Faithful to the source quirk that the scalar part
`get_bond_length_gradient(xyz_dist[j,j+1], bond_length[j,j+1], bonds[j,j+1:])`
evaluates the distance and ideal length at the fixed pair `(j, j+1)` (a scalar
index, not a slice), broadcast over all `k > j` through `bonds[j,k]`;
only the final division uses `xyz_dist[j,k]`. -/
def gdPairForce (xyz : Fin n → Pt) (j k : Fin n) : Pt :=
  let scal : ℝ :=
    if hj : (j : ℕ) + 1 < n then
      get_bond_length_gradient (xyzDist xyz j ⟨(j : ℕ) + 1, hj⟩)
        (gdBondLength c atom_radius j ⟨(j : ℕ) + 1, hj⟩) (bonds j k)
    else 0
  (scal / xyzDist xyz j k) • (xyz j - xyz k)

/-- Net bond-energy contribution to the gradient of atom `i` (lines 223-228):
`+ Σ_{k>i} force(i,k)` from `d_xyz[j] += lambda_E*np.sum(forces)` and
`- Σ_{j<i} force(j,i)` from `d_xyz[j+1:] -= lambda_E*forces`. -/
def gdBondGrad (xyz : Fin n → Pt) (i : Fin n) : Pt :=
  (∑ k, if i < k then gdPairForce c bonds atom_radius xyz i k else 0)
    - ∑ j, if j < i then gdPairForce c bonds atom_radius xyz j i else 0

/-- The full loss gradient `d_xyz` of one iteration (lines 216-228): the
density residual weighted by the kernel gradient, summed over all points,
plus (when `lambda_E` is truthy) the bond-energy forces. -/
def gdGrad (xyz : Fin n → Pt) : Fin n → Pt :=
  fun j =>
    (((points.zip density).map fun q =>
      (densityPredAt c atom_radius radius_multiple radius_factor xyz q.1 (c j) - q.2 (c j)) •
        get_atom_gradient (xyz j) (radius_factor * atom_radius (c j)) q.1 radius_multiple).sum)
    + (if lambda_E = 0 then 0 else lambda_E • gdBondGrad c bonds atom_radius xyz j)

/-- The `while True:` loop of `fit_atoms_by_GD` (lines 180-231), recursing on
the remaining iteration budget `max_iter - i` (`i == max_iter` is the last
break disjunct).  State: current positions `xyz`, the previous iteration's raw
gradient `d_xyz` (zeros initially), and the previous loss (`none` = `np.inf`).
Each iteration recomputes the predicted density and the loss; breaks when
there are no atoms, or the loss failed to decrease by more than `1e-3`, or the
budget is exhausted; otherwise sets `d_xyz_prev := d_xyz`, computes the fresh
gradient, and updates `xyz -= lr*(mo*d_xyz_prev + (1-mo)*d_xyz)`.
Returns `(xyz, density_pred, loss)`. -/
def gdLoop : ℕ → (Fin n → Pt) → (Fin n → Pt) → Option ℝ →
    ((Fin n → Pt) × List (Fin nc → ℝ) × ℝ)
  | 0, xyz, _, _ =>
      (xyz, points.map (densityPredAt c atom_radius radius_multiple radius_factor xyz),
        gdLoss points density c bonds atom_radius radius_multiple lambda_E radius_factor xyz)
  | fuel + 1, xyz, d_xyz, lossPrev =>
      let loss := gdLoss points density c bonds atom_radius radius_multiple lambda_E radius_factor xyz
      if n = 0 ∨ lossPrev.elim False (fun lp => loss - lp > -(1 / 1000)) then
        (xyz, points.map (densityPredAt c atom_radius radius_multiple radius_factor xyz), loss)
      else
        let g := gdGrad points density c bonds atom_radius radius_multiple lambda_E radius_factor xyz
        gdLoop fuel (fun j => xyz j - lr • (mo • d_xyz j + (1 - mo) • g j)) g (some loss)

/-- `fit_atoms_by_GD` (lines 154-233): runs the loop from the initial
positions with zero velocity buffer and infinite previous loss. -/
def fit_atoms_by_GD (xyz_init : Fin n → Pt) (max_iter : ℕ) :
    (Fin n → Pt) × List (Fin nc → ℝ) × ℝ :=
  gdLoop points density c bonds atom_radius radius_multiple lr mo lambda_E radius_factor
    max_iter xyz_init (fun _ _ => 0) none

/-- The recurrence that the positions of `fit_atoms_by_GD` actually follow
while no break fires (the corrected form of the "momentum" update): state
`(x_t, g_t)` of positions and the last raw gradient, with
`x_{t+1} = x_t - lr*(mo*g_t + (1-mo)*g_{t+1})` and `g_{t+1}` the gradient at
`x_t`; the "velocity" is not accumulated, only the previous raw gradient is
reused. -/
def gdTraj (xyz_init : Fin n → Pt) : ℕ → ((Fin n → Pt) × (Fin n → Pt))
  | 0 => (xyz_init, fun _ _ => 0)
  | t + 1 =>
      let s := gdTraj xyz_init t
      let g := gdGrad points density c bonds atom_radius radius_multiple lambda_E radius_factor s.1
      (fun j => s.1 j - lr • (mo • s.2 j + (1 - mo) • g j), g)

end GD

section NextAtom

variable {nc : ℕ} [NeZero nc]
variable {n : ℕ} (xyz_init : Fin n → Pt) (c : Fin n → Fin nc)
variable (atom_radius : Fin nc → ℝ) (bonded : Bool) (bonds : Fin n → Fin n → ℝ)
variable (max_n_bonds : Fin nc → ℕ) (max_init_bond_E : ℝ)

/-- `np.argmax` over one channel axis: index of the first maximal entry. -/
def argmaxD (f : Fin nc → ℝ) : Fin nc :=
  (List.finRange nc).foldl (fun b i => if f b < f i then i else b)
    ⟨0, Nat.pos_of_ne_zero (NeZero.ne nc)⟩

/-- `min_bond_length2` (line 387): the squared ideal bond length minus
`log(1 + sqrt(max_init_bond_E))`. -/
def minBondLength2 (chi chj : Fin nc) : ℝ :=
  (atom_radius chi + atom_radius chj) ^ 2 - Real.log (1 + Real.sqrt max_init_bond_E)

/-- `max_bond_length2` (line 388): the squared ideal bond length minus
`log(1 - sqrt(max_init_bond_E))`. -/
def maxBondLength2 (chi chj : Fin nc) : ℝ :=
  (atom_radius chi + atom_radius chj) ^ 2 - Real.log (1 - Real.sqrt max_init_bond_E)

/-- `can_bond[i]` (line 391): atom `i` has fewer bonds than its channel's
maximum. -/
def canBond (i : Fin n) : Prop := ∑ j, bonds i j < (max_n_bonds (c i) : ℝ)

/-- `dist_min2[i,ch]` (lines 411-416): the bonded window's lower bound, or the
bare (unsquared) channel radius in unconstrained mode. -/
def distMin2 (i : Fin n) (ch : Fin nc) : ℝ :=
  if bonded then minBondLength2 atom_radius max_init_bond_E (c i) ch else atom_radius (c i)

/-- `far_enough[i,ch]` (line 420): `dist2 > dist_min2`. -/
def farEnough (p : Pt) (i : Fin n) (ch : Fin nc) : Prop :=
  dist2 p (xyz_init i) > distMin2 c atom_radius bonded max_init_bond_E i ch

/-- `near_enough[i,ch]` (line 421): `dist2 < dist_max2`, where `dist_max2` is
infinite in unconstrained mode. -/
def nearEnough (p : Pt) (i : Fin n) (ch : Fin nc) : Prop :=
  if bonded then dist2 p (xyz_init i) < maxBondLength2 atom_radius max_init_bond_E (c i) ch
  else True

/-- `in_range[ch]` (lines 425-426): far enough from every atom, and near
enough to some atom that can still bond. -/
def inRange (p : Pt) (ch : Fin nc) : Prop :=
  (∀ i, farEnough xyz_init c atom_radius bonded max_init_bond_E p i ch) ∧
    ∃ i, nearEnough xyz_init c atom_radius bonded max_init_bond_E p i ch ∧
      canBond c bonds max_n_bonds i

/-- One step of the `for p, d in zip(points, density)` scan of `get_next_atom`
(lines 393-435), updating the best candidate so far and `d_max`. -/
def gnaStep (acc : Option (Pt × Fin nc × (Fin n → Bool)) × ℝ) (q : Pt × (Fin nc → ℝ)) :
    Option (Pt × Fin nc × (Fin n → Bool)) × ℝ :=
  let d_max := acc.2
  if ∃ ch, q.2 ch > d_max then
    if n = 0 then
      let c_new := argmaxD q.2
      (some (q.1, c_new, fun _ => false), q.2 c_new)
    else
      if ∃ ch, inRange xyz_init c atom_radius bonded bonds max_n_bonds max_init_bond_E q.1 ch ∧
          q.2 ch > d_max then
        let c_new := argmaxD fun ch =>
          (if inRange xyz_init c atom_radius bonded bonds max_n_bonds max_init_bond_E q.1 ch
            then 1 else 0) * (if q.2 ch > d_max then 1 else 0) * q.2 ch
        (some (q.1, c_new,
          fun i => if bonded then
            (if nearEnough xyz_init c atom_radius bonded max_init_bond_E q.1 i c_new ∧
                canBond c bonds max_n_bonds i then true else false)
          else false),
          q.2 c_new)
      else acc
  else acc

/-- `get_next_atom` (lines 372-437): scan all `(point, density)` pairs and
return the accepted candidate `(xyz_new, c_new, bonds_new)`, or `none` when no
point qualifies (`d_max` starts at `0.0`). -/
def get_next_atom (points : List Pt) (density : List (Fin nc → ℝ)) :
    Option (Pt × Fin nc × (Fin n → Bool)) :=
  ((points.zip density).foldl
    (gnaStep xyz_init c atom_radius bonded bonds max_n_bonds max_init_bond_E) (none, 0)).1

/-- Invariant of the candidate scan of `get_next_atom`: the running `d_max` is
nonnegative, and any recorded candidate `(p, ch, bn)` bonds only to atoms that
are near enough and can still bond, and sits far enough from every atom. -/
def gnaInv (acc : Option (Pt × Fin nc × (Fin n → Bool)) × ℝ) : Prop :=
  0 ≤ acc.2 ∧ ∀ p ch bn, acc.1 = some (p, ch, bn) →
    ∀ i, (bn i = true → nearEnough xyz_init c atom_radius bonded max_init_bond_E p i ch
        ∧ canBond c bonds max_n_bonds i)
      ∧ farEnough xyz_init c atom_radius bonded max_init_bond_E p i ch

end NextAtom

section Outer

variable {nc : ℕ} [NeZero nc]

/-- The mutable atom arrays of the outer loop of `fit_atoms_to_grids`:
`xyz_init`, `c` and the square bond matrix, all of one length `n`. -/
structure AtomSet (nc : ℕ) where
  n : ℕ
  xyz : Fin n → Pt
  ch : Fin n → Fin nc
  bonds : Fin n → Fin n → ℝ

/-- Growing the bond matrix by the new atom's row and column with a zero
diagonal entry (lines 360-362). -/
def extendBonds {n : ℕ} (B : Fin n → Fin n → ℝ) (bn : Fin n → Bool) :
    Fin (n + 1) → Fin (n + 1) → ℝ :=
  fun i j =>
    if hi : (i : ℕ) < n then
      if hj : (j : ℕ) < n then B ⟨i, hi⟩ ⟨j, hj⟩ else if bn ⟨i, hi⟩ then 1 else 0
    else
      if hj : (j : ℕ) < n then (if bn ⟨j, hj⟩ then 1 else 0) else 0

/-- Folding a channel grid into the flat per-point list of densities
(`grids.reshape((n_channels, -1)).T`, line 309), in the same `np.ndindex`
order as `get_grid_points`. -/
def gridToList (nc D : ℕ) (grids : Fin nc → Fin D → Fin D → Fin D → ℝ) :
    List (Fin nc → ℝ) :=
  (List.finRange D).flatMap fun i =>
    (List.finRange D).flatMap fun j =>
      (List.finRange D).map fun k => fun ch => grids ch i j k

/-- Reshaping a flat per-point list back into a channel grid
(`density_diff.T.reshape((n_channels,) + grid_shape)`, line 347). -/
def listToGrid (nc D : ℕ) (l : List (Fin nc → ℝ)) :
    Fin nc → Fin D → Fin D → Fin D → ℝ :=
  fun ch i j k => l.getD ((i : ℕ) * D * D + (j : ℕ) * D + (k : ℕ)) 0 ch

/-- The `while True:` loop of `fit_atoms_to_grids` (lines 320-364) with an
explicit fuel (`none` = fuel exhausted).  Each iteration optimizes the current
candidate set with `fit_atoms_by_GD` (with the call-site defaults
`lr = 0.01`, `mo = 0.9`); breaks returning `(xyz, c, bonds, loss_best)` when
the new loss strictly exceeds the best so far (note: `xyz`, `c`, `bonds` are
the rejected candidate's arrays, while `loss_best` is the previous best);
otherwise accepts, warm-starts `xyz_init` when `greedy`, computes the
(unused) deconvolved residual, asks `get_next_atom` for a candidate — note it
is passed `density`, the raw target — and either grows the atom set or breaks
returning the accepted arrays and loss. -/
def fitLoop (points : List Pt) (density : List (Fin nc → ℝ)) (D : ℕ)
    (radii : Fin nc → ℝ) (max_n_bonds : Fin nc → ℕ) (center : Pt)
    (resolution : ℝ) (max_iter : ℕ) (radius_multiple lambda_E : ℝ)
    (deconv_fit : Bool) (noise_ratio radius_factor : ℝ) (greedy bonded : Bool)
    (max_init_bond_E : ℝ) :
    ℕ → AtomSet nc → Option ℝ → Option (AtomSet nc × Option ℝ)
  | 0, _, _ => none
  | fuel + 1, A, loss_best =>
      let r := fit_atoms_by_GD points density A.ch A.bonds radii radius_multiple
        (1 / 100) (9 / 10) lambda_E radius_factor A.xyz max_iter
      if ∃ b, loss_best = some b ∧ r.2.2 > b then
        some (⟨A.n, r.1, A.ch, A.bonds⟩, loss_best)
      else
        let loss_best' := some r.2.2
        let xyz_init' := if greedy then r.1 else A.xyz
        let density_diff := List.zipWith (fun t p => t - p) density r.2.1
        let _density_diff_dead :=
          if deconv_fit then
            gridToList nc D (wiener_deconv_grids nc D (listToGrid nc D density_diff) radii
              center resolution radius_multiple noise_ratio radius_factor)
          else density_diff
        match get_next_atom xyz_init' A.ch radii bonded A.bonds max_n_bonds max_init_bond_E
            points density with
        | some (p, c_new, bn) =>
            fitLoop points density D radii max_n_bonds center resolution max_iter
              radius_multiple lambda_E deconv_fit noise_ratio radius_factor greedy bonded
              max_init_bond_E fuel
              ⟨A.n + 1, Fin.snoc xyz_init' p, Fin.snoc A.ch c_new, extendBonds A.bonds bn⟩
              loss_best'
        | none => some (⟨A.n, r.1, A.ch, A.bonds⟩, loss_best')

/-- `fit_atoms_to_grids` (lines 294-369): convert the grids to a point cloud,
then run the greedy outer loop from the empty atom set with infinite best
loss.  (The channel catalog's radii and maximum bond counts — the external
`atom_types` module — are passed in as data.) -/
def fit_atoms_to_grids (D : ℕ) (grids : Fin nc → Fin D → Fin D → Fin D → ℝ)
    (radii : Fin nc → ℝ) (max_n_bonds : Fin nc → ℕ) (center : Pt)
    (resolution : ℝ) (max_iter : ℕ) (radius_multiple lambda_E : ℝ)
    (deconv_fit : Bool) (noise_ratio radius_factor : ℝ) (greedy bonded : Bool)
    (max_init_bond_E : ℝ) (fuel : ℕ) : Option (AtomSet nc × Option ℝ) :=
  fitLoop (get_grid_points D center resolution) (gridToList nc D grids) D radii
    max_n_bonds center resolution max_iter radius_multiple lambda_E deconv_fit
    noise_ratio radius_factor greedy bonded max_init_bond_E fuel
    ⟨0, fun i => i.elim0, fun i => i.elim0, fun i => i.elim0⟩ none

end Outer

section GMM

/-- The `noise_params_init` dict of `fit_atoms_by_GMM`, with all keys present
(`mean`, `cov` for the density noise model, `prob` for the uniform one). -/
structure NoiseParams where
  mean : ℝ
  cov : ℝ
  prob : ℝ

/-- `scipy.stats.multivariate_normal.pdf` of one 3-d point with mean `μ` and
isotropic scalar covariance `covv`. -/
def mvnormal_pdf3 (x μ : Pt) (covv : ℝ) : ℝ :=
  (2 * Real.pi * covv) ^ (-(3 : ℝ) / 2) * Real.exp (-dist2 x μ / (2 * covv))

/-- `multivariate_normal.pdf` of one scalar with mean `μ` and variance
`covv`. -/
def mvnormal_pdf1 (x μ covv : ℝ) : ℝ :=
  (2 * Real.pi * covv) ^ (-(1 : ℝ) / 2) * Real.exp (-(x - μ) ^ 2 / (2 * covv))

variable {m : ℕ} (points : Fin m → Pt) (density : Fin m → ℝ)
variable {n : ℕ} (atom_radius : Fin n → ℝ)
variable (radius_multiple : ℝ) (noise_model : String) (noise_params_init : NoiseParams)

/-- `n_comps = n_atoms + bool(noise_model)` (line 94). -/
def gmmNComps (n : ℕ) (noise_model : String) : ℕ :=
  n + (if noise_model = "" then 0 else 1)

/-- `L_point[i,j] = P(point_i | comp_j)` (lines 104-110): a Gaussian at each
atom with covariance `(0.5*atom_radius)**2`, and an optional last noise
component (a Gaussian over the density values for model `d`, a constant
probability for model `p`). -/
def gmmLPoint (xyz : Fin n → Pt) (noise_mean noise_cov : ℝ)
    (i : Fin m) (j : Fin (gmmNComps n noise_model)) : ℝ :=
  if hj : (j : ℕ) < n then
    mvnormal_pdf3 (points i) (xyz ⟨j, hj⟩) ((0.5 * atom_radius ⟨j, hj⟩) ^ 2)
  else if noise_model = "d" then mvnormal_pdf1 (density i) noise_mean noise_cov
  else noise_params_init.prob

/-- The EM loop of `fit_atoms_by_GMM` (lines 100-138), recursing on the
remaining budget `max_iter - i`.  Each iteration runs the E-step and computes
the expected log likelihood `ll = Σ density*log(P_point)`; breaks (returning
the current positions and `ll`) when `ll - ll_prev < 1e-3` (`ll_prev = -inf`
initially, modelled by `none`) or the budget is out; otherwise runs the
M-step and recurses. -/
def emLoop : ℕ → (Fin n → Pt) → ℝ → ℝ → (Fin (gmmNComps n noise_model) → ℝ) →
    Option ℝ → ((Fin n → Pt) × ℝ)
  | 0, xyz, nmean, ncov, P_comp, _ =>
      (xyz, ∑ i, density i * Real.log (∑ j, P_comp j *
        gmmLPoint points density atom_radius noise_model noise_params_init xyz nmean ncov i j))
  | fuel + 1, xyz, nmean, ncov, P_comp, ll_prev =>
      let L := gmmLPoint points density atom_radius noise_model noise_params_init xyz nmean ncov
      let P_point := fun i => ∑ j, P_comp j * L i j
      let gamma := fun i j => P_comp j * L i j / P_point i
      let ll := ∑ i, density i * Real.log (P_point i)
      if (match ll_prev with
          | none => False
          | some lp => ll - lp < 1 / 1000) then (xyz, ll)
      else
        let xyz' := fun (j : Fin n) (ax : Fin 3) =>
          (∑ i, density i * gamma i (Fin.castLE (Nat.le_add_right n _) j) * points i ax) /
            ∑ i, density i * gamma i (Fin.castLE (Nat.le_add_right n _) j)
        let gammaLast := fun i =>
          if h : n < gmmNComps n noise_model then gamma i ⟨n, h⟩ else 0
        let noise' : ℝ × ℝ :=
          if noise_model = "d" then
            let nmean' := (∑ i, gammaLast i * density i) / ∑ i, gammaLast i
            let ncov' := (∑ i, gammaLast i * (density i - nmean') ^ 2) / ∑ i, gammaLast i
            if ncov' = 0 then (noise_params_init.mean, noise_params_init.cov)
            else (nmean', ncov')
          else (nmean, ncov)
        let P_comp' :=
          if noise_model ≠ "" ∧ 0 < n then
            let plast := (∑ i, density i * gammaLast i) / ∑ i, density i
            fun (j : Fin (gmmNComps n noise_model)) =>
              if (j : ℕ) < n then (1 - plast) / n else plast
          else P_comp
        emLoop fuel xyz' noise'.1 noise'.2 P_comp' (some ll)

/-- `fit_atoms_by_GMM` (lines 68-151).  The three `assert` statements are
modelled as `Except.error` with the source's messages, raised in the source's
order before any EM iteration; a valid call runs the EM loop from the uniform
prior and reports the requested goodness of fit (`nll`, `aic` with
`n_params = 3n + noise params + (n_comps - 1)`, or the L2 reconstruction
loss recomputed from the final positions). -/
def fit_atoms_by_GMM (xyz_init : Fin n → Pt) (max_iter : ℕ) (gof_crit : String) :
    Except String ((Fin n → Pt) × ℝ) :=
  if gof_crit = "nll" ∨ gof_crit = "aic" ∨ gof_crit = "L2" then
    if noise_model = "d" ∨ noise_model = "p" ∨ noise_model = "" then
      if 0 < gmmNComps n noise_model then
        let r := emLoop points density atom_radius noise_model noise_params_init max_iter
          xyz_init noise_params_init.mean noise_params_init.cov
          (fun _ => 1 / (gmmNComps n noise_model : ℝ)) none
        let n_params : ℕ := 3 * n +
          (if noise_model = "d" then 2 else if noise_model = "p" then 1 else 0) +
          (gmmNComps n noise_model - 1)
        let gof : ℝ :=
          if gof_crit = "L2" then
            (∑ i, ((∑ j, get_atom_density (r.1 j) (atom_radius j) (points i) radius_multiple)
              - density i) ^ 2) / 2
          else if gof_crit = "aic" then 2 * (n_params : ℝ) - 2 * r.2
          else -r.2
        .ok (r.1, gof)
      else .error "Need at least one component (atom or noise model) to fit GMM"
    else .error "Invalid value for noise_model argument"
  else .error "Invalid value for gof_crit argument"

end GMM

section Examples

/-- A point on the x axis, used by the concrete example runs below. -/
def gd1Vec (x : ℝ) : Pt := ![x, 0, 0]

/-- The origin: the single sample point of the one-atom example. -/
def gd1Point : Pt := fun _ => 0

/-- One sample point at the origin. -/
def gd1Points : List Pt := [gd1Point]

/-- One channel with target density `100` at the single point. -/
def gd1Density : List (Fin 1 → ℝ) := [fun _ => 100]

/-- Channel indices of the one-atom example. -/
def gd1C : Fin 1 → Fin 1 := fun _ => 0

/-- Empty bond matrix of the one-atom example. -/
def gd1Bonds : Fin 1 → Fin 1 → ℝ := fun _ _ => 0

/-- Channel radius `2` (so `h = 0.5*radius = 1`) of the one-atom example. -/
def gd1Radius : Fin 1 → ℝ := fun _ => 2

/-- Order on optional losses with `none` playing the role of the `np.inf`
initialisation of `loss_best`: every value is at most `none = inf`. -/
def optLossLE (a b : Option ℝ) : Prop :=
  b.elim True fun x => a.elim False fun y => y ≤ x

end Examples

end

/-! ## Theorems -/

noncomputable section

open Classical

theorem dist2_nonneg (p q : Pt) : 0 ≤ dist2 p q :=
  Finset.sum_nonneg fun _ _ => sq_nonneg _

/-- `get_atom_density` is a function of the distance only: it equals the
radial profile evaluated at `sqrt(dist2)`. -/
theorem get_atom_density_eq_radial (pos : Pt) (r m : ℝ) (p : Pt) :
    get_atom_density pos r p m = atom_density_radial r m (Real.sqrt (dist2 p pos)) := by
  simp only [get_atom_density, atom_density_radial]
  rw [Real.sq_sqrt (dist2_nonneg p pos)]

/-- Claim C10: for every atom position, radius `r > 0`, radius multiple and
query point, `get_atom_density` is nonnegative; in the intermediate band
`r < dist < m*r` it equals the perfect square
`exp(-2) * (dist/(0.5*r) - 3)^2`, so in particular it is never negative. -/
theorem get_atom_density_nonneg (pos : Pt) (r m : ℝ) (p : Pt) (hr : 0 < r) :
    0 ≤ get_atom_density pos r p m ∧
      (r < Real.sqrt (dist2 p pos) → Real.sqrt (dist2 p pos) < m * r →
        get_atom_density pos r p m
          = Real.exp (-2) * (Real.sqrt (dist2 p pos) / (0.5 * r) - 3) ^ 2) := by
  have hd2 : Real.sqrt (dist2 p pos) ^ 2 = dist2 p pos :=
    Real.sq_sqrt (dist2_nonneg p pos)
  set d := Real.sqrt (dist2 p pos) with hd
  have hr0 : (0.5 : ℝ) * r ≠ 0 := by positivity
  have hquad : dist2 p pos * Real.exp (-2) / (0.5 * r) ^ 2
      - 6 * d * Real.exp (-2) / (0.5 * r) + 9 * Real.exp (-2)
      = Real.exp (-2) * (d / (0.5 * r) - 3) ^ 2 := by
    rw [← hd2]
    field_simp
    ring
  simp only [get_atom_density, ← hd]
  constructor
  · split
    · exact le_refl 0
    · split
      · exact (Real.exp_pos _).le
      · rw [hquad]
        positivity
  · intro h1 h2
    rw [if_neg (not_le.mpr h2), if_neg (not_le.mpr h1)]
    exact hquad

/-- Witness for `get_atom_density_nonneg` at a concrete input. -/
theorem get_atom_density_nonneg_witness :
    (0 : ℝ) < 2 ∧
      (0 ≤ get_atom_density (fun _ => 0) 2 ![5/2, 0, 0] (3/2) ∧
        (2 < Real.sqrt (dist2 ![5/2, 0, 0] fun _ => 0) →
          Real.sqrt (dist2 ![5/2, 0, 0] fun _ => 0) < 3/2 * 2 →
          get_atom_density (fun _ => 0) 2 ![5/2, 0, 0] (3/2)
            = Real.exp (-2) * (Real.sqrt (dist2 ![5/2, 0, 0] fun _ => 0) / (0.5 * 2) - 3) ^ 2)) :=
  ⟨by norm_num, get_atom_density_nonneg (fun _ => 0) 2 (3/2) ![5/2, 0, 0] (by norm_num)⟩

/-- Counterexample to claim C6 as stated: with radius `1` and radius multiple
`2` the radial density profile is NOT continuous at the outer breakpoint
`dist = radius_multiple * radius = 2`: the quadratic shoulder tends to
`exp(-2) ≠ 0` from the left while the function is `0` from `2` on. -/
theorem atom_density_radial_discontinuous_at_outer :
    ¬ ContinuousAt (atom_density_radial 1 2) 2 := by
  intro h
  have hval : atom_density_radial 1 2 2 = 0 := by
    simp only [atom_density_radial]
    rw [if_pos (by norm_num)]
  have h1 : Filter.Tendsto (atom_density_radial 1 2) (nhdsWithin 2 (Set.Iio 2)) (nhds 0) := by
    have ht := h.tendsto
    rw [hval] at ht
    exact ht.mono_left nhdsWithin_le_nhds
  have hev : atom_density_radial 1 2
      =ᶠ[nhdsWithin 2 (Set.Iio 2)]
        fun d => d ^ 2 * Real.exp (-2) / (0.5 * 1) ^ 2
          - 6 * d * Real.exp (-2) / (0.5 * 1) + 9 * Real.exp (-2) := by
    filter_upwards [Ioo_mem_nhdsWithin_Iio (a := (1:ℝ))
      (Set.mem_Ioc.mpr ⟨by norm_num, le_refl (2:ℝ)⟩)] with d hd
    simp only [atom_density_radial]
    rw [if_neg (by simpa using not_le.mpr hd.2), if_neg (not_le.mpr hd.1)]
  have h2 : Filter.Tendsto
      (fun d : ℝ => d ^ 2 * Real.exp (-2) / (0.5 * 1) ^ 2
        - 6 * d * Real.exp (-2) / (0.5 * 1) + 9 * Real.exp (-2))
      (nhdsWithin 2 (Set.Iio 2)) (nhds (Real.exp (-2))) := by
    have hc : Continuous fun d : ℝ => d ^ 2 * Real.exp (-2) / (0.5 * 1) ^ 2
        - 6 * d * Real.exp (-2) / (0.5 * 1) + 9 * Real.exp (-2) := by
      continuity
    have := (hc.tendsto 2).mono_left (nhdsWithin_le_nhds (s := Set.Iio (2:ℝ)))
    convert this using 2
    field_simp
    ring
  have h0 : (0 : ℝ) = Real.exp (-2) :=
    tendsto_nhds_unique (h1.congr' hev) h2
  exact (Real.exp_pos (-2)).ne h0

/-- Claim C6, amended: for every radius `r > 0` and radius multiple `m > 1`,
the density is `0` at distance `≥ m*r`, is the Gaussian at distance `≤ r`,
and is continuous at the inner breakpoint `dist = r`; continuity at the
outer breakpoint (the value going to zero at `dist = m*r`) holds for the
radius multiple `m = 3/2` that the program uses (`data_param.radius_multiple
= 1.5`), for which the whole profile is continuous. -/
theorem atom_density_radial_breakpoints (r m : ℝ) (hr : 0 < r) (hm : 1 < m) :
    (∀ d, m * r ≤ d → atom_density_radial r m d = 0) ∧
      (∀ d, d ≤ r → atom_density_radial r m d = Real.exp (-d ^ 2 / (2 * (0.5 * r) ^ 2))) ∧
      ContinuousAt (atom_density_radial r m) r ∧
      Continuous (atom_density_radial r (3/2)) := by
  have hrmr : r < m * r := by nlinarith
  have hr2 : (0.5 : ℝ) * r ≠ 0 := by positivity
  have hinner : Continuous fun d : ℝ =>
      if d ≤ r then Real.exp (-d ^ 2 / (2 * (0.5 * r) ^ 2))
      else d ^ 2 * Real.exp (-2) / (0.5 * r) ^ 2 - 6 * d * Real.exp (-2) / (0.5 * r)
        + 9 * Real.exp (-2) := by
    refine Continuous.if_le ?_ ?_ continuous_id continuous_const ?_
    · exact Real.continuous_exp.comp (by continuity)
    · continuity
    · intro a ha
      subst ha
      rw [show -a ^ 2 / (2 * (0.5 * a) ^ 2) = -2 by field_simp; ring]
      rw [show a ^ 2 * Real.exp (-2) / (0.5 * a) ^ 2 - 6 * a * Real.exp (-2) / (0.5 * a)
          + 9 * Real.exp (-2) = Real.exp (-2) by field_simp; ring]
  refine ⟨?_, ?_, ?_, ?_⟩
  · intro d hd
    simp only [atom_density_radial]
    rw [if_pos hd]
  · intro d hd
    simp only [atom_density_radial]
    rw [if_neg (not_le.mpr (lt_of_le_of_lt hd hrmr)), if_pos hd]
  · have hev : (fun d : ℝ =>
        if d ≤ r then Real.exp (-d ^ 2 / (2 * (0.5 * r) ^ 2))
        else d ^ 2 * Real.exp (-2) / (0.5 * r) ^ 2 - 6 * d * Real.exp (-2) / (0.5 * r)
          + 9 * Real.exp (-2)) =ᶠ[nhds r] atom_density_radial r m := by
      filter_upwards [Iio_mem_nhds hrmr] with d hd
      simp only [atom_density_radial]
      exact (if_neg (not_le.mpr hd)).symm
    exact (hinner.continuousAt).congr hev
  · have h32 : Continuous fun d : ℝ =>
        if 3/2 * r ≤ d then (0:ℝ)
        else if d ≤ r then Real.exp (-d ^ 2 / (2 * (0.5 * r) ^ 2))
        else d ^ 2 * Real.exp (-2) / (0.5 * r) ^ 2 - 6 * d * Real.exp (-2) / (0.5 * r)
          + 9 * Real.exp (-2) := by
      refine Continuous.if_le continuous_const hinner continuous_const continuous_id ?_
      intro a ha
      rw [if_neg (not_le.mpr (by nlinarith))]
      rw [show a = 3/2 * r from ha.symm]
      field_simp
      ring
    exact h32.congr fun d => by simp only [atom_density_radial]

/-- Witness for `atom_density_radial_breakpoints` at `r = 1`, `m = 3/2`. -/
theorem atom_density_radial_breakpoints_witness :
    (0:ℝ) < 1 ∧ (1:ℝ) < 3/2 ∧
      ((∀ d, 3/2 * 1 ≤ d → atom_density_radial 1 (3/2) d = 0) ∧
        (∀ d, d ≤ 1 → atom_density_radial 1 (3/2) d
          = Real.exp (-d ^ 2 / (2 * (0.5 * 1) ^ 2))) ∧
        ContinuousAt (atom_density_radial 1 (3/2)) 1 ∧
        Continuous (atom_density_radial 1 (3/2))) :=
  ⟨by norm_num, by norm_num, atom_density_radial_breakpoints 1 (3/2) (by norm_num) (by norm_num)⟩

/-- With the pipeline's radius multiple `3/2` the density kernel never
exceeds `1` (the value at the atom center): the Gaussian branch has a
nonpositive exponent and the quadratic shoulder stays below `exp(-2)`. -/
theorem get_atom_density_le_one (pos : Pt) (r : ℝ) (p : Pt) :
    get_atom_density pos r p (3/2) ≤ 1 := by
  have hd2 : Real.sqrt (dist2 p pos) ^ 2 = dist2 p pos :=
    Real.sq_sqrt (dist2_nonneg p pos)
  have hdnn : 0 ≤ Real.sqrt (dist2 p pos) := Real.sqrt_nonneg _
  simp only [get_atom_density]
  split
  · exact zero_le_one
  · split
    · refine Real.exp_le_one_iff.mpr ?_
      have : (0:ℝ) ≤ dist2 p pos / (2 * (0.5 * r) ^ 2) :=
        div_nonneg (dist2_nonneg p pos) (by positivity)
      linarith [neg_div (2 * (0.5 * r) ^ 2) (dist2 p pos)]
    · rename_i h1 h2
      push_neg at h1 h2
      have hr : 0 < r := by nlinarith
      have hr0 : (0.5:ℝ) * r ≠ 0 := by positivity
      have hq : dist2 p pos * Real.exp (-2) / (0.5 * r) ^ 2
          - 6 * Real.sqrt (dist2 p pos) * Real.exp (-2) / (0.5 * r) + 9 * Real.exp (-2)
          = Real.exp (-2) * (Real.sqrt (dist2 p pos) / (0.5 * r) - 3) ^ 2 := by
        rw [← hd2]; field_simp; ring
      rw [hq]
      have hlow : 2 < Real.sqrt (dist2 p pos) / (0.5 * r) := by
        rw [lt_div_iff₀ (by positivity)]
        nlinarith
      have hhigh : Real.sqrt (dist2 p pos) / (0.5 * r) < 3 := by
        rw [div_lt_iff₀ (by positivity)]
        nlinarith
      have hsq : (Real.sqrt (dist2 p pos) / (0.5 * r) - 3) ^ 2 ≤ 1 := by nlinarith
      have he : Real.exp (-2) ≤ 1 := Real.exp_le_one_iff.mpr (by norm_num)
      have hep : (0:ℝ) < Real.exp (-2) := Real.exp_pos _
      nlinarith

/-- Counterexample to claim C4 as stated: on a grid of side `6` (center the
origin, resolution `1`, radius `1`, radius multiple `3/2`) the estimated
point-spread function is NOT the kernel rendered at the grid center (the atom
sits at `center + resolution/2`, giving value `1` at voxel `(3,3,3)` where the
center-rendered kernel gives `exp(-3/2)`), and after the circular shift the
peak value `1` sits at voxel `(3,3,3)`, not at `(0,0,0)` where the value is
`0`. -/
theorem wiener_deconv_psf_counterexample :
    wiener_deconv_psf 6 (fun _ => 0) 1 1 (3/2) 0 0 0 = 0 ∧
      wiener_deconv_psf 6 (fun _ => 0) 1 1 (3/2) 3 3 3 = 1 ∧
      wiener_psf_preroll 6 (fun _ => 0) 1 1 (3/2) 3 3 3
        ≠ get_atom_density (fun _ => 0) 1 (pointOfIdx 6 (fun _ => 0) 1 3 3 3) (3/2) := by
  have hroll0 : rollIdx 6 (0 : Fin 6) = (0 : Fin 6) := by decide
  have hroll3 : rollIdx 6 (3 : Fin 6) = (3 : Fin 6) := by decide
  have c3 : (((3 : Fin 6) : ℕ) : ℝ) = 3 := by norm_cast
  have hp0 : pointOfIdx 6 (fun _ => 0) 1 0 0 0 = fun _ => -(5/2) := by
    funext ax
    fin_cases ax <;> simp [pointOfIdx, grid_origin] <;> norm_num
  have hp3 : pointOfIdx 6 (fun _ => 0) 1 3 3 3 = fun _ => 1/2 := by
    funext ax
    fin_cases ax <;> simp [pointOfIdx, grid_origin, c3] <;> norm_num
  have hd27 : dist2 (fun _ => -(5/2) : Pt) (fun ax => (fun _ => (0:ℝ)) ax + 1 / 2) = 27 := by
    simp only [dist2, Fin.sum_univ_three]
    norm_num
  have hd0 : dist2 (fun _ => 1/2 : Pt) (fun ax => (fun _ => (0:ℝ)) ax + 1 / 2) = 0 := by
    simp only [dist2, Fin.sum_univ_three]
    norm_num
  refine ⟨?_, ?_, ?_⟩
  · simp only [wiener_deconv_psf, hroll0, wiener_psf_preroll, hp0, get_atom_density, hd27]
    rw [if_pos]
    have h1 : Real.sqrt (9/4) ≤ Real.sqrt 27 := Real.sqrt_le_sqrt (by norm_num)
    rw [show (9/4:ℝ) = (3/2)^2 by norm_num, Real.sqrt_sq (by norm_num)] at h1
    linarith
  · simp only [wiener_deconv_psf, hroll3, wiener_psf_preroll, hp3, get_atom_density, hd0]
    rw [Real.sqrt_zero, if_neg (by norm_num), if_pos (by norm_num)]
    norm_num [Real.exp_zero]
  · simp only [wiener_psf_preroll, hp3, get_atom_density, hd0]
    rw [Real.sqrt_zero, if_neg (by norm_num), if_pos (by norm_num)]
    have hd34 : dist2 (fun _ => 1/2 : Pt) (fun _ => 0 : Pt) = 3/4 := by
      simp only [dist2, Fin.sum_univ_three]
      norm_num
    rw [hd34]
    have hs1 : Real.sqrt (3/4) ≤ 1 := by
      rw [show (1:ℝ) = Real.sqrt 1 by rw [Real.sqrt_one]]
      exact Real.sqrt_le_sqrt (by norm_num)
    rw [if_neg (not_le.mpr (lt_of_le_of_lt hs1 (by norm_num))), if_pos hs1]
    have h1 : Real.exp (-(3/4) / (2 * (0.5 * 1) ^ 2)) < 1 :=
      Real.exp_lt_one_iff.mpr (by norm_num)
    have h2 : Real.exp (-0 / (2 * (0.5 * 1) ^ 2)) = 1 := by norm_num [Real.exp_zero]
    rw [h2]
    exact ne_of_gt h1

/-- Claim C4, amended: the point-spread function is the kernel rendered for a
single atom at `center + resolution/2` (one half-voxel off the grid center;
for the even grid sides used this is exactly a voxel center), and for the
deployment grid side `24` the hardcoded circular shift by `(12,12,12)` does
put the peak value at voxel `(0,0,0)`: for every center, resolution and
radius, no voxel of the shifted PSF exceeds the value at `(0,0,0)`. -/
theorem wiener_deconv_psf_peak_at_origin (center : Pt) (resolution atom_radius : ℝ)
    (i j k : Fin 24) :
    wiener_deconv_psf 24 center resolution atom_radius (3/2) i j k ≤
      wiener_deconv_psf 24 center resolution atom_radius (3/2) 0 0 0 := by
  have hroll0 : rollIdx 24 (0 : Fin 24) = (12 : Fin 24) := by decide
  have c12 : (((12 : Fin 24) : ℕ) : ℝ) = 12 := by norm_cast
  have hpt : pointOfIdx 24 center resolution 12 12 12
      = fun ax => center ax + resolution / 2 := by
    funext ax
    fin_cases ax <;> simp [pointOfIdx, grid_origin, c12] <;> ring
  by_cases hr : 0 < atom_radius
  · have h0 : wiener_deconv_psf 24 center resolution atom_radius (3/2) 0 0 0 = 1 := by
      simp only [wiener_deconv_psf, hroll0, wiener_psf_preroll, hpt, get_atom_density]
      have hdd : dist2 (fun ax => center ax + resolution / 2)
          (fun ax => center ax + resolution / 2) = 0 := by
        simp [dist2]
      rw [hdd, Real.sqrt_zero, if_neg (by push_neg; positivity), if_pos hr.le]
      norm_num
    rw [h0]
    exact get_atom_density_le_one _ _ _
  · push_neg at hr
    have hz : ∀ a b c : Fin 24,
        wiener_deconv_psf 24 center resolution atom_radius (3/2) a b c = 0 := by
      intro a b c
      simp only [wiener_deconv_psf, wiener_psf_preroll, get_atom_density]
      rw [if_pos]
      have : (3/2) * atom_radius ≤ 0 := by nlinarith
      exact this.trans (Real.sqrt_nonneg _)
    rw [hz, hz]

/-- Claim C9: `fit_atoms_by_GMM` fails with an invalid-argument condition
(one of the source's three `assert` messages, checked in order before any EM
iteration) if and only if the goodness-of-fit identifier is not one of
`nll`, `aic`, `L2`, or the noise-model identifier is not one of `d`, `p`,
`''`, or the mixture would have zero components (no atoms and no noise
model); otherwise it returns positions and a goodness-of-fit score. -/
theorem fit_atoms_by_GMM_validation
    (m n : ℕ) (points : Fin m → Pt) (density : Fin m → ℝ)
    (atom_radius : Fin n → ℝ) (radius_multiple : ℝ) (noise_model : String)
    (noise_params_init : NoiseParams) (xyz_init : Fin n → Pt) (max_iter : ℕ)
    (gof_crit : String) :
    (∃ e, fit_atoms_by_GMM points density atom_radius radius_multiple noise_model
        noise_params_init xyz_init max_iter gof_crit = Except.error e)
      ↔ (¬(gof_crit = "nll" ∨ gof_crit = "aic" ∨ gof_crit = "L2")
        ∨ ¬(noise_model = "d" ∨ noise_model = "p" ∨ noise_model = "")
        ∨ (n = 0 ∧ noise_model = "")) := by
  unfold fit_atoms_by_GMM
  split_ifs with hA hB hC
  · constructor
    · rintro ⟨e, he⟩
      exact he.elim
    · rintro (h | h | ⟨hn, hnm⟩)
      · exact absurd hA h
      · exact absurd hB h
      · subst hnm
        unfold gmmNComps at hC
        simp [hn] at hC
  · constructor
    · intro _
      refine Or.inr (Or.inr ?_)
      have h0 : gmmNComps n noise_model = 0 := by omega
      unfold gmmNComps at h0
      by_cases hnm : noise_model = ""
      · refine ⟨?_, hnm⟩
        simpa [hnm] using h0
      · simp [hnm] at h0
    · intro _
      exact ⟨_, rfl⟩
  · constructor
    · intro _
      exact Or.inr (Or.inl hB)
    · intro _
      exact ⟨_, rfl⟩
  · constructor
    · intro _
      exact Or.inl hA
    · intro _
      exact ⟨_, rfl⟩

/-- Numeric bounds on `exp(-2)`, used by the concrete gradient-descent runs. -/
theorem exp_neg_two_bounds : 27/200 < Real.exp (-2) ∧ Real.exp (-2) < 17/125 := by
  have h1 := Real.exp_one_gt_d9
  have h2 := Real.exp_one_lt_d9
  have he : Real.exp (-2) * (Real.exp 1 * Real.exp 1) = 1 := by
    rw [← Real.exp_add, ← Real.exp_add]
    norm_num [Real.exp_zero]
  have hp : (0:ℝ) < Real.exp (-2) := Real.exp_pos _
  have he2l : (7.38905609:ℝ) < Real.exp 1 * Real.exp 1 := by nlinarith
  have he2u : Real.exp 1 * Real.exp 1 < 7.38905611 := by nlinarith
  constructor <;> nlinarith

theorem gd1_dist2 (x : ℝ) : dist2 gd1Point (gd1Vec x) = x ^ 2 := by
  simp only [dist2, gd1Point, gd1Vec, Fin.sum_univ_three]
  norm_num

theorem gd1_density_eval (x : ℝ) (h2 : 2 < x) (h3 : x < 3) :
    get_atom_density (gd1Vec x) (1 * gd1Radius 0) gd1Point (3/2)
      = Real.exp (-2) * (x - 3) ^ 2 := by
  have hx : (0:ℝ) ≤ x := by linarith
  simp only [get_atom_density, gd1Radius]
  rw [gd1_dist2, Real.sqrt_sq hx]
  rw [if_neg (not_le.mpr (by norm_num; linarith)), if_neg (not_le.mpr (by norm_num; linarith))]
  norm_num
  ring

theorem gd1_gradient_eval (x : ℝ) (h0 : 0 < x) (h2 : 2 < x) (h3 : x < 3) :
    get_atom_gradient (gd1Vec x) (1 * gd1Radius 0) gd1Point (3/2)
      = gd1Vec (Real.exp (-2) * (2 * x - 6)) := by
  funext ax
  simp only [get_atom_gradient, gd1Radius]
  rw [gd1_dist2, Real.sqrt_sq h0.le]
  have hzc : ¬(3/2 * (1 * (2:ℝ)) ≤ x ∨ x ≤ 1 / 100000000) := by
    push_neg
    constructor
    · norm_num
      linarith
    · nlinarith
  rw [if_neg hzc, if_neg (not_le.mpr (by norm_num; linarith))]
  fin_cases ax <;> simp [gd1Point, gd1Vec] <;> field_simp <;> ring

theorem gd1Vec_smul (s a : ℝ) : s • gd1Vec a = gd1Vec (s * a) := by
  funext ax
  fin_cases ax <;> simp [gd1Vec]

theorem gd1Vec_add (a b : ℝ) : gd1Vec a + gd1Vec b = gd1Vec (a + b) := by
  funext ax
  fin_cases ax <;> simp [gd1Vec]

theorem gd1Vec_sub (a b : ℝ) : gd1Vec a - gd1Vec b = gd1Vec (a - b) := by
  funext ax
  fin_cases ax <;> simp [gd1Vec]

theorem gd1Vec_zero : gd1Vec 0 = fun _ => (0:ℝ) := by
  funext ax
  fin_cases ax <;> simp [gd1Vec]

theorem gd1_pred (x : ℝ) (h2 : 2 < x) (h3 : x < 3) :
    densityPredAt gd1C gd1Radius (3/2) 1 (fun _ => gd1Vec x) gd1Point
      = fun _ => Real.exp (-2) * (x - 3) ^ 2 := by
  funext ch
  simp only [densityPredAt, Fin.sum_univ_one, gd1C]
  rw [if_pos (Subsingleton.elim (0 : Fin 1) ch)]
  exact gd1_density_eval x h2 h3

theorem gd1_loss (x : ℝ) (h2 : 2 < x) (h3 : x < 3) :
    gdLoss gd1Points gd1Density gd1C gd1Bonds gd1Radius (3/2) 0 1 (fun _ => gd1Vec x)
      = (Real.exp (-2) * (x - 3) ^ 2 - 100) ^ 2 / 2 := by
  simp only [gdLoss, gdL2, gdE, if_pos rfl, add_zero]
  simp only [gd1Points, gd1Density, List.zip_cons_cons, List.zip_nil_left, List.map_cons,
    List.map_nil, List.sum_cons, List.sum_nil, add_zero, Fin.sum_univ_one]
  simp only [gd1_pred x h2 h3]
  simp

theorem gd1_grad (x : ℝ) (h0 : 0 < x) (h2 : 2 < x) (h3 : x < 3) :
    gdGrad gd1Points gd1Density gd1C gd1Bonds gd1Radius (3/2) 0 1 (fun _ => gd1Vec x)
      = fun _ => gd1Vec ((Real.exp (-2) * (x - 3) ^ 2 - 100) * (Real.exp (-2) * (2 * x - 6))) := by
  funext j
  simp only [gdGrad, if_pos rfl, add_zero]
  simp only [gd1Points, gd1Density, List.zip_cons_cons, List.zip_nil_left, List.map_cons,
    List.map_nil, List.sum_cons, List.sum_nil, add_zero, gd1C]
  simp only [gd1_pred x h2 h3, gd1_gradient_eval x h0 h2 h3, gd1Vec_smul]
  simp

theorem gdLoop_zero {nc n : ℕ} (points : List Pt) (density : List (Fin nc → ℝ))
    (c : Fin n → Fin nc) (bonds : Fin n → Fin n → ℝ) (radii : Fin nc → ℝ)
    (rm lr mo lE rf : ℝ) (xyz dxyz : Fin n → Pt) (lp : Option ℝ) :
    gdLoop points density c bonds radii rm lr mo lE rf 0 xyz dxyz lp
      = (xyz, points.map (densityPredAt c radii rm rf xyz),
          gdLoss points density c bonds radii rm lE rf xyz) := rfl

theorem gdLoop_succ_continue {nc n : ℕ} (points : List Pt) (density : List (Fin nc → ℝ))
    (c : Fin n → Fin nc) (bonds : Fin n → Fin n → ℝ) (radii : Fin nc → ℝ)
    (rm lr mo lE rf : ℝ) (fuel : ℕ) (xyz dxyz : Fin n → Pt) (lp : Option ℝ)
    (h : ¬(n = 0 ∨ lp.elim False
      (fun l => gdLoss points density c bonds radii rm lE rf xyz - l > -(1 / 1000)))) :
    gdLoop points density c bonds radii rm lr mo lE rf (fuel + 1) xyz dxyz lp
      = gdLoop points density c bonds radii rm lr mo lE rf fuel
          (fun j => xyz j - lr • (mo • dxyz j
            + (1 - mo) • gdGrad points density c bonds radii rm lE rf xyz j))
          (gdGrad points density c bonds radii rm lE rf xyz)
          (some (gdLoss points density c bonds radii rm lE rf xyz)) := by
  simp only [gdLoop]
  rw [if_neg h]


set_option maxHeartbeats 1600000 in
/-- Counterexample to claim C2 as stated: in a concrete two-update run of
`fit_atoms_by_GD` (one atom of radius `2` at `x = 5/2`, one sample point at
the origin with target density `100`, default `lr = 0.01`, `mo = 0.9`,
`lambda_E = 0`), the position after the second update does not equal the
classical-momentum position `x1 - lr*(mo*v1 + (1-mo)*g2)` with
`v1 = mo*0 + (1-mo)*g1`: the code reuses the raw previous gradient `g1`
instead of the accumulated velocity `v1`. -/
theorem fit_atoms_by_GD_momentum_counterexample :
    (fit_atoms_by_GD gd1Points gd1Density gd1C gd1Bonds gd1Radius (3/2) (1/100) (9/10) 0 1
        (fun _ => gd1Vec (5/2)) 2).1 0
      ≠ (fit_atoms_by_GD gd1Points gd1Density gd1C gd1Bonds gd1Radius (3/2) (1/100) (9/10) 0 1
          (fun _ => gd1Vec (5/2)) 1).1 0
        - (1/100 : ℝ) • ((9/10 : ℝ) • ((1 - 9/10 : ℝ) • gdGrad gd1Points gd1Density gd1C
              gd1Bonds gd1Radius (3/2) 0 1 (fun _ => gd1Vec (5/2)) 0)
          + (1 - 9/10 : ℝ) • gdGrad gd1Points gd1Density gd1C gd1Bonds gd1Radius (3/2) 0 1
              ((fit_atoms_by_GD gd1Points gd1Density gd1C gd1Bonds gd1Radius (3/2) (1/100) (9/10)
                0 1 (fun _ => gd1Vec (5/2)) 1).1) 0) := by
  obtain ⟨hel, heu⟩ := exp_neg_two_bounds
  have hg1 := gd1_grad (5/2) (by norm_num) (by norm_num) (by norm_num)
  obtain ⟨x1, hx1def⟩ : ∃ y : ℝ, y = 5/2 - 1/100 * (9/10 * 0 + (1 - 9/10) *
      ((Real.exp (-2) * (5/2 - 3) ^ 2 - 100) * (Real.exp (-2) * (2 * (5/2) - 6)))) := ⟨_, rfl⟩
  have hstep1 :
      (fun j : Fin 1 => (fun _ : Fin 1 => gd1Vec (5/2)) j - (1/100 : ℝ) •
          ((9/10 : ℝ) • (fun _ : Fin 1 => (fun _ : Fin 3 => (0:ℝ))) j
            + (1 - 9/10 : ℝ) • gdGrad gd1Points gd1Density gd1C gd1Bonds gd1Radius (3/2) 0 1
                (fun _ => gd1Vec (5/2)) j))
      = fun _ : Fin 1 => gd1Vec x1 := by
    funext j
    simp only [hg1]
    rw [show (fun _ : Fin 3 => (0:ℝ)) = gd1Vec 0 from gd1Vec_zero.symm]
    simp only [gd1Vec_smul, gd1Vec_add, gd1Vec_sub]
    rw [hx1def]
  have hx1l : (62/25 : ℝ) < x1 := by rw [hx1def]; nlinarith
  have hx1u : x1 < (249/100 : ℝ) := by rw [hx1def]; nlinarith
  have hx1a : 2 < x1 := by linarith
  have hx1b : x1 < 3 := by linarith
  have hx1p : (0:ℝ) < x1 := by linarith
  have hg2 := gd1_grad x1 hx1p hx1a hx1b
  have hL0 := gd1_loss (5/2) (by norm_num) (by norm_num)
  have hL1 := gd1_loss x1 hx1a hx1b
  have hD : gdLoss gd1Points gd1Density gd1C gd1Bonds gd1Radius (3/2) 0 1
        (fun _ => gd1Vec x1)
      - gdLoss gd1Points gd1Density gd1C gd1Bonds gd1Radius (3/2) 0 1
        (fun _ => gd1Vec (5/2)) ≤ -(1/1000) := by
    rw [hL0, hL1]
    have hq1 : (51/100 : ℝ) < 3 - x1 := by linarith
    have hq2 : (3:ℝ) - x1 < 52/100 := by linarith
    have hP1l : (351/10000 : ℝ) < Real.exp (-2) * (x1 - 3) ^ 2 := by nlinarith
    have hP1u : Real.exp (-2) * (x1 - 3) ^ 2 < 37/1000 := by nlinarith
    have hP0l : (337/10000 : ℝ) < Real.exp (-2) * (5/2 - 3) ^ 2 := by nlinarith
    have hP0u : Real.exp (-2) * (5/2 - 3) ^ 2 < 34/1000 := by nlinarith
    nlinarith [hP1l, hP1u, hP0l, hP0u]
  have hc1 : ¬((1:ℕ) = 0 ∨ (none : Option ℝ).elim False
      (fun l => gdLoss gd1Points gd1Density gd1C gd1Bonds gd1Radius (3/2) 0 1
        (fun _ => gd1Vec (5/2)) - l > -(1/1000))) := by
    rintro (h | h)
    · exact absurd h (by norm_num)
    · exact h
  have hc2 : ¬((1:ℕ) = 0 ∨ (some (gdLoss gd1Points gd1Density gd1C gd1Bonds gd1Radius (3/2)
        0 1 (fun _ => gd1Vec (5/2))) : Option ℝ).elim False
      (fun l => gdLoss gd1Points gd1Density gd1C gd1Bonds gd1Radius (3/2) 0 1
        (fun _ => gd1Vec x1) - l > -(1/1000))) := by
    rintro (h | h)
    · exact absurd h (by norm_num)
    · exact absurd hD (not_le.mpr h)
  have hR1 : (fit_atoms_by_GD gd1Points gd1Density gd1C gd1Bonds gd1Radius (3/2) (1/100) (9/10)
      0 1 (fun _ => gd1Vec (5/2)) 1).1 = fun _ : Fin 1 => gd1Vec x1 := by
    unfold fit_atoms_by_GD
    rw [gdLoop_succ_continue (h := hc1), gdLoop_zero]
    dsimp only
    rw [hstep1]
  have hR2 : (fit_atoms_by_GD gd1Points gd1Density gd1C gd1Bonds gd1Radius (3/2) (1/100) (9/10)
      0 1 (fun _ => gd1Vec (5/2)) 2).1
      = fun _ : Fin 1 => gd1Vec (x1 - 1/100 * (9/10 *
          ((Real.exp (-2) * (5/2 - 3) ^ 2 - 100) * (Real.exp (-2) * (2 * (5/2) - 6)))
        + (1 - 9/10) *
          ((Real.exp (-2) * (x1 - 3) ^ 2 - 100) * (Real.exp (-2) * (2 * x1 - 6))))) := by
    unfold fit_atoms_by_GD
    rw [gdLoop_succ_continue (h := hc1)]
    rw [hstep1, hg1]
    rw [gdLoop_succ_continue (h := hc2), gdLoop_zero]
    dsimp only
    funext j
    simp only [hg2]
    simp only [gd1Vec_smul, gd1Vec_add, gd1Vec_sub]
  rw [hR1, hR2, hg1, hg2]
  intro heq
  have h0 : gd1Vec (x1 - 1/100 * (9/10 *
        ((Real.exp (-2) * (5/2 - 3) ^ 2 - 100) * (Real.exp (-2) * (2 * (5/2) - 6)))
      + (1 - 9/10) *
        ((Real.exp (-2) * (x1 - 3) ^ 2 - 100) * (Real.exp (-2) * (2 * x1 - 6)))))
      = gd1Vec x1 - (1/100 : ℝ) • ((9/10 : ℝ) • ((1 - 9/10 : ℝ) • gd1Vec
          ((Real.exp (-2) * (5/2 - 3) ^ 2 - 100) * (Real.exp (-2) * (2 * (5/2) - 6))))
        + (1 - 9/10 : ℝ) • gd1Vec
          ((Real.exp (-2) * (x1 - 3) ^ 2 - 100) * (Real.exp (-2) * (2 * x1 - 6)))) := heq
  simp only [gd1Vec_smul, gd1Vec_add, gd1Vec_sub] at h0
  have h1 : x1 - 1/100 * (9/10 *
        ((Real.exp (-2) * (5/2 - 3) ^ 2 - 100) * (Real.exp (-2) * (2 * (5/2) - 6)))
      + (1 - 9/10) *
        ((Real.exp (-2) * (x1 - 3) ^ 2 - 100) * (Real.exp (-2) * (2 * x1 - 6))))
      = x1 - 1/100 * (9/10 * ((1 - 9/10) *
        ((Real.exp (-2) * (5/2 - 3) ^ 2 - 100) * (Real.exp (-2) * (2 * (5/2) - 6))))
      + (1 - 9/10) *
        ((Real.exp (-2) * (x1 - 3) ^ 2 - 100) * (Real.exp (-2) * (2 * x1 - 6)))) := by
    have := congrFun h0 (0 : Fin 3)
    simpa only [gd1Vec, Matrix.cons_val_zero] using this
  have hG1pos : (0:ℝ) < (Real.exp (-2) * (5/2 - 3) ^ 2 - 100) * (Real.exp (-2) * (2 * (5/2) - 6)) := by
    nlinarith
  linarith [h1, hG1pos]

/-- Claim C2, amended: while no break fires, the position update of
`fit_atoms_by_GD` blends the current gradient with the PREVIOUS RAW GRADIENT,
not with an accumulated velocity:
`x_{t+1} = x_t - lr*(mo*g_t + (1-mo)*g_{t+1})` with `g_{t+1}` the gradient at
`x_t` and `g_0 = 0` (the recurrence `gdTraj`).  If there is at least one atom
and the loss decreases by more than `1e-3` at every iteration below the
budget `t`, the positions returned with `max_iter = t` are exactly `gdTraj t`.
(At the first update the two descriptions coincide; they differ from the
second update on, see the counterexample.) -/
theorem fit_atoms_by_GD_uses_previous_raw_gradient
    {nc n : ℕ} (points : List Pt) (density : List (Fin nc → ℝ))
    (c : Fin n → Fin nc) (bonds : Fin n → Fin n → ℝ) (radii : Fin nc → ℝ)
    (rm lr mo lE rf : ℝ) (xyz_init : Fin n → Pt) (t : ℕ)
    (hn : n ≠ 0)
    (hdec : ∀ s, s + 1 < t →
      gdLoss points density c bonds radii rm lE rf
          (gdTraj points density c bonds radii rm lr mo lE rf xyz_init (s + 1)).1
        - gdLoss points density c bonds radii rm lE rf
          (gdTraj points density c bonds radii rm lr mo lE rf xyz_init s).1 ≤ -(1/1000)) :
    (fit_atoms_by_GD points density c bonds radii rm lr mo lE rf xyz_init t).1
      = (gdTraj points density c bonds radii rm lr mo lE rf xyz_init t).1 := by
  have haux : ∀ k s0, s0 + 1 + k = t →
      gdLoop points density c bonds radii rm lr mo lE rf k
        (gdTraj points density c bonds radii rm lr mo lE rf xyz_init (s0 + 1)).1
        (gdTraj points density c bonds radii rm lr mo lE rf xyz_init (s0 + 1)).2
        (some (gdLoss points density c bonds radii rm lE rf
          (gdTraj points density c bonds radii rm lr mo lE rf xyz_init s0).1))
      = ((gdTraj points density c bonds radii rm lr mo lE rf xyz_init t).1,
          points.map (densityPredAt c radii rm rf
            (gdTraj points density c bonds radii rm lr mo lE rf xyz_init t).1),
          gdLoss points density c bonds radii rm lE rf
            (gdTraj points density c bonds radii rm lr mo lE rf xyz_init t).1) := by
    intro k
    induction k with
    | zero =>
        intro s0 hs
        rw [gdLoop_zero]
        have hst : s0 + 1 = t := by omega
        rw [hst]
    | succ k ih =>
        intro s0 hs
        have hc : ¬(n = 0 ∨ (some (gdLoss points density c bonds radii rm lE rf
            (gdTraj points density c bonds radii rm lr mo lE rf xyz_init s0).1)).elim False
            (fun l => gdLoss points density c bonds radii rm lE rf
              (gdTraj points density c bonds radii rm lr mo lE rf xyz_init (s0 + 1)).1
              - l > -(1/1000))) := by
          rintro (h | h)
          · exact hn h
          · exact absurd (hdec s0 (by omega)) (not_le.mpr h)
        rw [gdLoop_succ_continue (h := hc)]
        exact ih (s0 + 1) (by omega)
  cases t with
  | zero => rfl
  | succ t0 =>
      have hc : ¬(n = 0 ∨ (none : Option ℝ).elim False
          (fun l => gdLoss points density c bonds radii rm lE rf xyz_init - l > -(1/1000))) := by
        rintro (h | h)
        · exact hn h
        · exact h
      unfold fit_atoms_by_GD
      rw [gdLoop_succ_continue (h := hc)]
      have h2 := congrArg Prod.fst (haux t0 0 (by omega))
      exact h2

/-- Witness for `fit_atoms_by_GD_uses_previous_raw_gradient` at the one-atom
configuration with `t = 1`. -/
theorem fit_atoms_by_GD_uses_previous_raw_gradient_witness :
    (1 : ℕ) ≠ 0 ∧
      (fit_atoms_by_GD gd1Points gd1Density gd1C gd1Bonds gd1Radius (3/2) (1/100) (9/10) 0 1
          (fun _ => gd1Vec (5/2)) 1).1
        = (gdTraj gd1Points gd1Density gd1C gd1Bonds gd1Radius (3/2) (1/100) (9/10) 0 1
            (fun _ => gd1Vec (5/2)) 1).1 :=
  ⟨by norm_num,
    fit_atoms_by_GD_uses_previous_raw_gradient gd1Points gd1Density gd1C gd1Bonds gd1Radius
      (3/2) (1/100) (9/10) 0 1 (fun _ => gd1Vec (5/2)) 1 (by norm_num)
      (fun s hs => absurd hs (by omega))⟩

/-- The `deconv_fit` flag cannot influence one outer loop of
`fit_atoms_to_grids`: the deconvolved residual is computed but never read
(`get_next_atom` is passed the raw `density`). -/
theorem fitLoop_deconv_fit_no_effect {nc : ℕ} [NeZero nc] (points : List Pt)
    (density : List (Fin nc → ℝ)) (D : ℕ) (radii : Fin nc → ℝ)
    (max_n_bonds : Fin nc → ℕ) (center : Pt) (resolution : ℝ) (max_iter : ℕ)
    (radius_multiple lambda_E noise_ratio radius_factor : ℝ) (greedy bonded : Bool)
    (max_init_bond_E : ℝ) :
    ∀ (fuel : ℕ) (A : AtomSet nc) (loss_best : Option ℝ),
      fitLoop points density D radii max_n_bonds center resolution max_iter radius_multiple
          lambda_E true noise_ratio radius_factor greedy bonded max_init_bond_E fuel A loss_best
        = fitLoop points density D radii max_n_bonds center resolution max_iter radius_multiple
          lambda_E false noise_ratio radius_factor greedy bonded max_init_bond_E fuel A
          loss_best := by
  intro fuel
  induction fuel with
  | zero => intro A lb; rfl
  | succ fuel ih =>
      intro A lb
      simp only [fitLoop]
      split
      · rfl
      · rcases hgna : get_next_atom (if greedy then (fit_atoms_by_GD points density A.ch A.bonds
            radii radius_multiple (1/100) (9/10) lambda_E radius_factor A.xyz max_iter).1
            else A.xyz) A.ch radii bonded A.bonds max_n_bonds max_init_bond_E points density
          with _ | ⟨p, c_new, bn⟩
        · simp only [hgna]
        · simp only [hgna]
          exact ih _ _

/-- Claim C1 (the code as it stands): the result of `fit_atoms_to_grids` is
identical with `deconv_fit` enabled and disabled — the Wiener-deconvolved
residual (lines 345-351) is dead code, and every `get_next_atom` call
receives the raw target `density` (line 355), never the deconvolved
residual. -/
theorem fit_atoms_to_grids_deconv_fit_no_effect {nc : ℕ} [NeZero nc] (D : ℕ)
    (grids : Fin nc → Fin D → Fin D → Fin D → ℝ) (radii : Fin nc → ℝ)
    (max_n_bonds : Fin nc → ℕ) (center : Pt) (resolution : ℝ) (max_iter : ℕ)
    (radius_multiple lambda_E noise_ratio radius_factor : ℝ) (greedy bonded : Bool)
    (max_init_bond_E : ℝ) (fuel : ℕ) :
    fit_atoms_to_grids D grids radii max_n_bonds center resolution max_iter radius_multiple
        lambda_E true noise_ratio radius_factor greedy bonded max_init_bond_E fuel
      = fit_atoms_to_grids D grids radii max_n_bonds center resolution max_iter radius_multiple
        lambda_E false noise_ratio radius_factor greedy bonded max_init_bond_E fuel := by
  unfold fit_atoms_to_grids
  exact fitLoop_deconv_fit_no_effect _ _ _ _ _ _ _ _ _ _ _ _ _ _ _ fuel _ _

theorem optLossLE_refl (a : Option ℝ) : optLossLE a a := by
  cases a
  · trivial
  · exact le_refl _

theorem optLossLE_trans {a b c : Option ℝ} (h1 : optLossLE a b) (h2 : optLossLE b c) :
    optLossLE a c := by
  cases c
  · trivial
  · cases b
    · exact absurd h2 (by simp [optLossLE])
    · cases a
      · exact absurd h1 (by simp [optLossLE])
      · exact le_trans h1 h2

/-- Claim C8: from any reachable state of the outer loop of
`fit_atoms_to_grids`, the returned `loss_best` is at most the incoming
`loss_best` (with `none` = the `np.inf` initialisation); since each accepted
iteration replaces `loss_best` by a loss that is not greater, the sequence of
best-so-far losses over accepted outer iterations is monotonically
non-increasing. -/
theorem fitLoop_loss_best_monotone {nc : ℕ} [NeZero nc] (points : List Pt)
    (density : List (Fin nc → ℝ)) (D : ℕ) (radii : Fin nc → ℝ)
    (max_n_bonds : Fin nc → ℕ) (center : Pt) (resolution : ℝ) (max_iter : ℕ)
    (radius_multiple lambda_E : ℝ) (deconv_fit : Bool) (noise_ratio radius_factor : ℝ)
    (greedy bonded : Bool) (max_init_bond_E : ℝ) :
    ∀ (fuel : ℕ) (A : AtomSet nc) (loss_best : Option ℝ) (r : AtomSet nc × Option ℝ),
      fitLoop points density D radii max_n_bonds center resolution max_iter radius_multiple
          lambda_E deconv_fit noise_ratio radius_factor greedy bonded max_init_bond_E fuel A
          loss_best = some r
        → optLossLE r.2 loss_best := by
  intro fuel
  induction fuel with
  | zero =>
      intro A lb r h
      exact absurd h (by simp [fitLoop])
  | succ fuel ih =>
      intro A lb r h
      simp only [fitLoop] at h
      have hnext : optLossLE (some (fit_atoms_by_GD points density A.ch A.bonds radii
          radius_multiple (1/100) (9/10) lambda_E radius_factor A.xyz max_iter).2.2) lb
          ∨ r.2 = lb := by
        split at h
        · right
          cases h
          rfl
        · left
          next hcond =>
            cases lb
            · trivial
            · next b =>
                refine not_lt.mp fun hlt => hcond ⟨b, rfl, hlt⟩
      rcases hnext with hle | heq
      · split at h
        · cases h
          exact optLossLE_refl lb
        · rcases hgna : get_next_atom (if greedy then (fit_atoms_by_GD points density A.ch
              A.bonds radii radius_multiple (1/100) (9/10) lambda_E radius_factor A.xyz
              max_iter).1 else A.xyz) A.ch radii bonded A.bonds max_n_bonds max_init_bond_E
              points density with _ | ⟨p, c_new, bn⟩
          · rw [hgna] at h
            cases h
            exact hle
          · rw [hgna] at h
            exact optLossLE_trans (ih _ _ _ h) hle
      · rw [heq]
        exact optLossLE_refl lb

theorem gdLoop_natoms_zero {nc : ℕ} (points : List Pt) (density : List (Fin nc → ℝ))
    (c : Fin 0 → Fin nc) (bonds : Fin 0 → Fin 0 → ℝ) (radii : Fin nc → ℝ)
    (rm lr mo lE rf : ℝ) (fuel : ℕ) (xyz dxyz : Fin 0 → Pt) (lp : Option ℝ) :
    gdLoop points density c bonds radii rm lr mo lE rf fuel xyz dxyz lp
      = (xyz, points.map (densityPredAt c radii rm rf xyz),
          gdLoss points density c bonds radii rm lE rf xyz) := by
  cases fuel
  · rfl
  · simp only [gdLoop]
    rw [if_pos (Or.inl trivial)]

theorem gdLoss_empty_points {nc : ℕ} (c : Fin 0 → Fin nc) (bonds : Fin 0 → Fin 0 → ℝ)
    (radii : Fin nc → ℝ) (rm lE rf : ℝ) (xyz : Fin 0 → Pt) :
    gdLoss ([] : List Pt) ([] : List (Fin nc → ℝ)) c bonds radii rm lE rf xyz = 0 := by
  simp [gdLoss, gdL2, gdE]

theorem fitLoop_empty_eval :
    fitLoop ([] : List Pt) ([] : List (Fin 1 → ℝ)) 0 (fun _ => 1) (fun _ => 4) (fun _ => 0) 1 0
        (3/2) 0 false 0 1 false false (1/2) 1
        ⟨0, fun i => i.elim0, fun i => i.elim0, fun i => i.elim0⟩ (some 5)
      = some (⟨0, fun i => i.elim0, fun i => i.elim0, fun i => i.elim0⟩, some 0) := by
  have hGD : fit_atoms_by_GD ([] : List Pt) ([] : List (Fin 1 → ℝ)) (fun i : Fin 0 => i.elim0)
      (fun i : Fin 0 => i.elim0) (fun _ => (1:ℝ)) (3/2) (1/100) (9/10) 0 1
      (fun i => i.elim0) 0
      = (fun i => i.elim0, [],
          gdLoss ([] : List Pt) ([] : List (Fin 1 → ℝ)) (fun i : Fin 0 => i.elim0)
            (fun i : Fin 0 => i.elim0) (fun _ => (1:ℝ)) (3/2) 0 1 (fun i => i.elim0)) := by
    unfold fit_atoms_by_GD
    rw [gdLoop_natoms_zero]
    rfl
  simp only [fitLoop]
  rw [hGD]
  rw [if_neg ?hc]
  case hc =>
    rintro ⟨b, hb, hgt⟩
    cases hb
    rw [gdLoss_empty_points] at hgt
    dsimp at hgt
    norm_num at hgt
  have hgna : get_next_atom (fun i : Fin 0 => i.elim0) (fun i : Fin 0 => i.elim0)
      (fun _ => (1:ℝ)) false (fun i : Fin 0 => i.elim0) (fun _ => 4) (1/2)
      ([] : List Pt) ([] : List (Fin 1 → ℝ)) = none := rfl
  rw [gdLoss_empty_points]
  rw [if_neg Bool.false_ne_true]
  rw [hgna]

/-- Witness for `fitLoop_loss_best_monotone` at a concrete run (empty grid,
incoming best loss `5`, returned best loss `0 ≤ 5`). -/
theorem fitLoop_loss_best_monotone_witness :
    fitLoop ([] : List Pt) ([] : List (Fin 1 → ℝ)) 0 (fun _ => 1) (fun _ => 4) (fun _ => 0) 1 0
        (3/2) 0 false 0 1 false false (1/2) 1
        ⟨0, fun i => i.elim0, fun i => i.elim0, fun i => i.elim0⟩ (some 5)
      = some (⟨0, fun i => i.elim0, fun i => i.elim0, fun i => i.elim0⟩, some 0)
    ∧ optLossLE (some 0) (some 5) :=
  ⟨fitLoop_empty_eval,
    fitLoop_loss_best_monotone ([] : List Pt) ([] : List (Fin 1 → ℝ)) 0 (fun _ => 1)
      (fun _ => 4) (fun _ => 0) 1 0 (3/2) 0 false 0 1 false false (1/2) 1
      ⟨0, fun i => i.elim0, fun i => i.elim0, fun i => i.elim0⟩ (some 5)
      (⟨0, fun i => i.elim0, fun i => i.elim0, fun i => i.elim0⟩, some 0) fitLoop_empty_eval⟩

theorem gridToList_zero_mem {nc D : ℕ} (x : Fin nc → ℝ)
    (hx : x ∈ gridToList nc D fun _ _ _ _ => (0:ℝ)) : x = fun _ => 0 := by
  simp only [gridToList, List.mem_flatMap, List.mem_map, List.mem_finRange, true_and] at hx
  obtain ⟨i, j, k, rfl⟩ := hx
  rfl

theorem gdL2_zero_density {nc : ℕ} (points : List Pt) (density : List (Fin nc → ℝ))
    (hd : ∀ x ∈ density, x = fun _ => 0) (c : Fin 0 → Fin nc) (radii : Fin nc → ℝ)
    (rm rf : ℝ) (xyz : Fin 0 → Pt) :
    gdL2 points density c radii rm rf xyz = 0 := by
  unfold gdL2
  rw [List.sum_eq_zero, zero_div]
  intro x hx
  obtain ⟨q, hq, rfl⟩ := List.mem_map.mp hx
  have hq2 : q.2 = fun _ => 0 := hd q.2 (List.of_mem_zip hq).2
  rw [hq2]
  simp [densityPredAt]

theorem gdE_natoms_zero {nc : ℕ} (c : Fin 0 → Fin nc) (bonds : Fin 0 → Fin 0 → ℝ)
    (radii : Fin nc → ℝ) (lE : ℝ) (xyz : Fin 0 → Pt) :
    gdE c bonds radii lE xyz = 0 := by
  simp [gdE]

theorem get_next_atom_zero_density {nc : ℕ} [NeZero nc] (xyz0 : Fin 0 → Pt)
    (c : Fin 0 → Fin nc) (radii : Fin nc → ℝ) (bd : Bool) (bonds : Fin 0 → Fin 0 → ℝ)
    (maxb : Fin nc → ℕ) (maxE : ℝ) (points : List Pt) (density : List (Fin nc → ℝ))
    (hd : ∀ x ∈ density, x = fun _ => 0) :
    get_next_atom xyz0 c radii bd bonds maxb maxE points density = none := by
  unfold get_next_atom
  have key : ∀ (l : List (Pt × (Fin nc → ℝ))), (∀ q ∈ l, q.2 = fun _ => 0) →
      l.foldl (gnaStep xyz0 c radii bd bonds maxb maxE) (none, 0) = (none, 0) := by
    intro l
    induction l with
    | nil => intro _; rfl
    | cons q l ih =>
        intro hq
        rw [List.foldl_cons]
        have hq2 : q.2 = fun _ => 0 := hq q (List.mem_cons_self q l)
        have hstep : gnaStep xyz0 c radii bd bonds maxb maxE (none, 0) q = (none, 0) := by
          simp only [gnaStep]
          rw [if_neg]
          rintro ⟨ch, hch⟩
          rw [hq2] at hch
          simp at hch
        rw [hstep]
        exact ih fun q2 h => hq q2 (List.mem_cons_of_mem _ h)
  rw [key _ fun q hq => hd q.2 (List.of_mem_zip hq).2]

/-- Claim C7: on a grid whose density is everywhere zero,
`fit_atoms_to_grids` returns the empty atom set (zero atoms, empty channel
labels, empty bond matrix) and loss `0`, for every positive fuel; moreover no
gradient-descent update is ever performed: with zero atoms the fitter's
result does not depend on the iteration budget at all (it equals the
`max_iter = 0` run), and its loss is `0`. -/
theorem fit_atoms_to_grids_zero_grid {nc : ℕ} [NeZero nc] (D : ℕ) (radii : Fin nc → ℝ)
    (max_n_bonds : Fin nc → ℕ) (center : Pt) (resolution : ℝ) (max_iter : ℕ)
    (rm lE : ℝ) (dc : Bool) (nr rf : ℝ) (gr bd : Bool) (maxE : ℝ) (fuel : ℕ) :
    fit_atoms_to_grids D (fun _ _ _ _ => 0) radii max_n_bonds center resolution max_iter rm lE
        dc nr rf gr bd maxE (fuel + 1)
      = some (⟨0, fun i => i.elim0, fun i => i.elim0, fun i => i.elim0⟩, some 0)
    ∧ (∀ mi, fit_atoms_by_GD (get_grid_points D center resolution)
          (gridToList nc D fun _ _ _ _ => 0) (fun i : Fin 0 => i.elim0)
          (fun i : Fin 0 => i.elim0) radii rm (1/100) (9/10) lE rf (fun i => i.elim0) mi
        = fit_atoms_by_GD (get_grid_points D center resolution)
          (gridToList nc D fun _ _ _ _ => 0) (fun i : Fin 0 => i.elim0)
          (fun i : Fin 0 => i.elim0) radii rm (1/100) (9/10) lE rf (fun i => i.elim0) 0)
    ∧ (fit_atoms_by_GD (get_grid_points D center resolution)
          (gridToList nc D fun _ _ _ _ => 0) (fun i : Fin 0 => i.elim0)
          (fun i : Fin 0 => i.elim0) radii rm (1/100) (9/10) lE rf (fun i => i.elim0) 0).2.2
        = 0 := by
  have hloss : gdLoss (get_grid_points D center resolution)
      (gridToList nc D fun _ _ _ _ => 0) (fun i : Fin 0 => i.elim0)
      (fun i : Fin 0 => i.elim0) radii rm lE rf (fun i => i.elim0) = 0 := by
    unfold gdLoss
    rw [gdL2_zero_density _ _ (fun x hx => gridToList_zero_mem x hx), gdE_natoms_zero]
    norm_num
  have hGD : ∀ mi, fit_atoms_by_GD (get_grid_points D center resolution)
      (gridToList nc D fun _ _ _ _ => 0) (fun i : Fin 0 => i.elim0)
      (fun i : Fin 0 => i.elim0) radii rm (1/100) (9/10) lE rf (fun i => i.elim0) mi
      = (fun i => i.elim0, (get_grid_points D center resolution).map
          (densityPredAt (fun i : Fin 0 => i.elim0) radii rm rf (fun i => i.elim0)),
          gdLoss (get_grid_points D center resolution)
            (gridToList nc D fun _ _ _ _ => 0) (fun i : Fin 0 => i.elim0)
            (fun i : Fin 0 => i.elim0) radii rm lE rf (fun i => i.elim0)) := by
    intro mi
    unfold fit_atoms_by_GD
    rw [gdLoop_natoms_zero]
  refine ⟨?_, ?_, ?_⟩
  · unfold fit_atoms_to_grids
    simp only [fitLoop]
    rw [hGD]
    rw [if_neg ?hc]
    case hc =>
      rintro ⟨b, hb, hgt⟩
      exact Option.noConfusion hb
    rw [hloss]
    have hgna := get_next_atom_zero_density (fun i : Fin 0 => i.elim0)
      (fun i : Fin 0 => i.elim0) radii bd (fun i : Fin 0 => i.elim0) max_n_bonds maxE
      (get_grid_points D center resolution) (gridToList nc D fun _ _ _ _ => 0)
      (fun x hx => gridToList_zero_mem x hx)
    rw [ite_self (c := gr = true) (fun i : Fin 0 => (i.elim0 : Pt))]
    rw [hgna]
  · intro mi
    rw [hGD, hGD]
  · rw [hGD]
    exact hloss

theorem argmaxD_fin_one (f : Fin 1 → ℝ) : argmaxD f = 0 :=
  Subsingleton.elim _ _

theorem fitLoop_step_reject {nc : ℕ} [NeZero nc] {points : List Pt}
    {density : List (Fin nc → ℝ)} {D : ℕ} {radii : Fin nc → ℝ} {max_n_bonds : Fin nc → ℕ}
    {center : Pt} {resolution : ℝ} {max_iter : ℕ} {radius_multiple lambda_E : ℝ}
    {deconv_fit : Bool} {noise_ratio radius_factor : ℝ} {greedy bonded : Bool}
    {max_init_bond_E : ℝ} {fuel : ℕ} {A : AtomSet nc} {loss_best : Option ℝ}
    (hyes : ∃ b, loss_best = some b ∧ (fit_atoms_by_GD points density A.ch A.bonds radii
      radius_multiple (1/100) (9/10) lambda_E radius_factor A.xyz max_iter).2.2 > b) :
    fitLoop points density D radii max_n_bonds center resolution max_iter radius_multiple
        lambda_E deconv_fit noise_ratio radius_factor greedy bonded max_init_bond_E
        (fuel + 1) A loss_best
      = some (⟨A.n, (fit_atoms_by_GD points density A.ch A.bonds radii radius_multiple
          (1/100) (9/10) lambda_E radius_factor A.xyz max_iter).1, A.ch, A.bonds⟩,
          loss_best) := by
  simp only [fitLoop]
  rw [if_pos hyes]

theorem fitLoop_step_add {nc : ℕ} [NeZero nc] {points : List Pt}
    {density : List (Fin nc → ℝ)} {D : ℕ} {radii : Fin nc → ℝ} {max_n_bonds : Fin nc → ℕ}
    {center : Pt} {resolution : ℝ} {max_iter : ℕ} {radius_multiple lambda_E : ℝ}
    {deconv_fit : Bool} {noise_ratio radius_factor : ℝ} {greedy bonded : Bool}
    {max_init_bond_E : ℝ} {fuel : ℕ} {A : AtomSet nc} {loss_best : Option ℝ}
    {p : Pt} {c_new : Fin nc} {bn : Fin A.n → Bool}
    (hno : ¬∃ b, loss_best = some b ∧ (fit_atoms_by_GD points density A.ch A.bonds radii
      radius_multiple (1/100) (9/10) lambda_E radius_factor A.xyz max_iter).2.2 > b)
    (hgna : get_next_atom (if greedy = true then (fit_atoms_by_GD points density A.ch A.bonds
        radii radius_multiple (1/100) (9/10) lambda_E radius_factor A.xyz max_iter).1
        else A.xyz) A.ch radii bonded A.bonds max_n_bonds max_init_bond_E points density
      = some (p, c_new, bn)) :
    fitLoop points density D radii max_n_bonds center resolution max_iter radius_multiple
        lambda_E deconv_fit noise_ratio radius_factor greedy bonded max_init_bond_E
        (fuel + 1) A loss_best
      = fitLoop points density D radii max_n_bonds center resolution max_iter radius_multiple
          lambda_E deconv_fit noise_ratio radius_factor greedy bonded max_init_bond_E fuel
          ⟨A.n + 1, Fin.snoc (if greedy = true then (fit_atoms_by_GD points density A.ch
            A.bonds radii radius_multiple (1/100) (9/10) lambda_E radius_factor A.xyz
            max_iter).1 else A.xyz) p, Fin.snoc A.ch c_new, extendBonds A.bonds bn⟩
          (some (fit_atoms_by_GD points density A.ch A.bonds radii radius_multiple (1/100)
            (9/10) lambda_E radius_factor A.xyz max_iter).2.2) := by
  simp only [fitLoop]
  rw [if_neg hno, hgna]

theorem c3_points : get_grid_points 1 (fun _ => 0) 1 = [fun _ => (0:ℝ)] := by
  have hfr : List.finRange 1 = [(0 : Fin 1)] := rfl
  simp only [get_grid_points, hfr, List.flatMap_cons, List.flatMap_nil, List.map_cons,
    List.map_nil, List.append_nil]
  congr 1
  funext ax
  simp only [pointOfIdx, grid_origin]
  fin_cases ax <;>
    norm_num [show ((0:Fin 1):ℕ) = 0 from rfl, Matrix.cons_val_zero, Matrix.cons_val_one,
      Matrix.head_cons]

theorem c3_density : gridToList 1 1 (fun _ _ _ _ => (1/100:ℝ)) = [fun _ => (1/100:ℝ)] := by
  have hfr : List.finRange 1 = [(0 : Fin 1)] := rfl
  simp only [gridToList, hfr, List.flatMap_cons, List.flatMap_nil, List.map_cons,
    List.map_nil, List.append_nil]

theorem c3_density_self :
    get_atom_density (fun _ => (0:ℝ)) 2 (fun _ => 0) (3/2) = 1 := by
  have hd2 : dist2 (fun _ => (0:ℝ)) (fun _ => 0) = 0 := by simp [dist2]
  simp only [get_atom_density, hd2, Real.sqrt_zero]
  rw [if_neg (by norm_num : ¬(3/2 * (2:ℝ) ≤ 0))]
  rw [if_pos (by norm_num : (0:ℝ) ≤ 2)]
  norm_num [Real.exp_zero]

theorem c3_gd0 :
    (fit_atoms_by_GD ([fun _ => (0:ℝ)] : List Pt) ([fun _ => (1/100:ℝ)] : List (Fin 1 → ℝ))
      (fun i : Fin 0 => i.elim0) (fun i : Fin 0 => i.elim0) (fun _ => (2:ℝ)) (3/2) (1/100)
      (9/10) 1 1 (fun i => i.elim0) 0).2.2 = 1/20000 := by
  unfold fit_atoms_by_GD
  rw [gdLoop_natoms_zero]
  dsimp only
  unfold gdLoss
  rw [gdE_natoms_zero, add_zero]
  unfold gdL2
  simp only [List.zip_cons_cons, List.zip_nil_left, List.map_cons, List.map_nil,
    List.sum_cons, List.sum_nil, add_zero, densityPredAt, Finset.univ_eq_empty,
    Finset.sum_empty, Fin.sum_univ_one]
  norm_num

theorem c3_gd1 :
    (fit_atoms_by_GD ([fun _ => (0:ℝ)] : List Pt) ([fun _ => (1/100:ℝ)] : List (Fin 1 → ℝ))
      (Fin.snoc (fun i : Fin 0 => i.elim0) (0 : Fin 1))
      (extendBonds (fun i : Fin 0 => i.elim0) (fun _ => false)) (fun _ => (2:ℝ)) (3/2)
      (1/100) (9/10) 1 1 (Fin.snoc (fun i : Fin 0 => i.elim0) (fun _ => (0:ℝ))) 0).2.2
      = 9801/20000 := by
  have hch : (Fin.snoc (fun i : Fin 0 => i.elim0) (0 : Fin 1) : Fin (0+1) → Fin 1)
      = fun _ => (0 : Fin 1) := by
    funext j
    have hj0 : (j : ℕ) = 0 := by omega
    have hj : j = Fin.last 0 := Fin.ext (by rw [hj0]; rfl)
    rw [hj, Fin.snoc_last]
  have hxyz : (Fin.snoc (fun i : Fin 0 => i.elim0) (fun _ => (0:ℝ)) : Fin (0+1) → Pt)
      = fun _ => fun _ => (0:ℝ) := by
    funext j
    have hj0 : (j : ℕ) = 0 := by omega
    have hj : j = Fin.last 0 := Fin.ext (by rw [hj0]; rfl)
    rw [hj, Fin.snoc_last]
  unfold fit_atoms_by_GD
  rw [gdLoop_zero]
  dsimp only
  rw [hch, hxyz]
  unfold gdLoss
  have hE : gdE (fun _ : Fin (0+1) => (0 : Fin 1))
      (extendBonds (fun i : Fin 0 => i.elim0) (fun _ => false)) (fun _ => (2:ℝ)) 1
      (fun _ => fun _ => (0:ℝ)) = 0 := by
    unfold gdE
    rw [if_neg (by norm_num : ¬(1:ℝ) = 0)]
    rw [Finset.sum_eq_zero, mul_zero]
    intro j _
    rw [Finset.sum_eq_zero]
    intro k _
    rw [if_neg]
    omega
  rw [hE, add_zero]
  unfold gdL2
  simp only [List.zip_cons_cons, List.zip_nil_left, List.map_cons, List.map_nil,
    List.sum_cons, List.sum_nil, add_zero, densityPredAt, Fin.sum_univ_one,
    Fin.sum_univ_succ, Finset.univ_eq_empty, Finset.sum_empty, one_mul]
  rw [if_pos trivial, c3_density_self]
  norm_num

theorem c3_gna :
    get_next_atom (fun i : Fin 0 => i.elim0) (fun i : Fin 0 => i.elim0) (fun _ => (2:ℝ))
      false (fun i : Fin 0 => i.elim0) (fun _ => 4) (1/2)
      ([fun _ => (0:ℝ)] : List Pt) ([fun _ => (1/100:ℝ)] : List (Fin 1 → ℝ))
      = some (fun _ => (0:ℝ), 0, fun _ => false) := by
  unfold get_next_atom
  simp only [List.zip_cons_cons, List.zip_nil_left, List.foldl_cons, List.foldl_nil]
  norm_num [gnaStep, argmaxD_fin_one]

set_option maxHeartbeats 1000000 in
/-- C3 (code bug): on a 1-voxel grid with target density `1/100` (one channel,
radius `2`, `max_iter = 0`, `lambda_E = 1`, `radius_multiple = 3/2`,
non-greedy, non-bonded), the first outer iteration fits the empty set (loss
`1/20000`) and places one atom at the voxel; the second iteration computes
that candidate's loss `9801/20000 > 1/20000` and breaks — but the returned
result pairs the rejected 1-atom candidate's arrays (`n = 1`) with the
previous best loss `1/20000`, the loss of the empty set, not a loss those
arrays achieve (their loss is `9801/20000`). -/
theorem fit_atoms_to_grids_returns_rejected_candidate :
    ∃ r : AtomSet 1 × Option ℝ,
      fit_atoms_to_grids 1 (fun _ _ _ _ => (1/100:ℝ)) (fun _ => 2) (fun _ => 4)
          (fun _ => 0) 1 0 (3/2) 1 false 0 1 false false (1/2) 2 = some r
        ∧ r.1.n = 1
        ∧ r.2 = some (1/20000)
        ∧ (fit_atoms_by_GD (get_grid_points 1 (fun _ => 0) 1)
            (gridToList 1 1 fun _ _ _ _ => (1/100:ℝ)) r.1.ch r.1.bonds (fun _ => (2:ℝ))
            (3/2) (1/100) (9/10) 1 1 r.1.xyz 0).2.2 = 9801/20000 := by
  have hno1 : ¬∃ b : ℝ, (none : Option ℝ) = some b
      ∧ (fit_atoms_by_GD ([fun _ => (0:ℝ)] : List Pt)
          ([fun _ => (1/100:ℝ)] : List (Fin 1 → ℝ)) (fun i : Fin 0 => i.elim0)
          (fun i : Fin 0 => i.elim0) (fun _ => (2:ℝ)) (3/2) (1/100) (9/10) 1 1
          (fun i => i.elim0) 0).2.2 > b := by
    rintro ⟨b, hb, _⟩
    exact Option.noConfusion hb
  have hyes2 : ∃ b : ℝ, (some (1/20000 : ℝ)) = some b
      ∧ (fit_atoms_by_GD ([fun _ => (0:ℝ)] : List Pt)
          ([fun _ => (1/100:ℝ)] : List (Fin 1 → ℝ))
          (Fin.snoc (fun i : Fin 0 => i.elim0) (0 : Fin 1))
          (extendBonds (fun i : Fin 0 => i.elim0) (fun _ => false)) (fun _ => (2:ℝ)) (3/2)
          (1/100) (9/10) 1 1 (Fin.snoc (fun i : Fin 0 => i.elim0) (fun _ => (0:ℝ))) 0).2.2
          > b := by
    refine ⟨1/20000, rfl, ?_⟩
    rw [c3_gd1]
    norm_num
  refine ⟨(⟨1, Fin.snoc (fun i : Fin 0 => i.elim0) (fun _ => (0:ℝ)),
      Fin.snoc (fun i : Fin 0 => i.elim0) (0 : Fin 1),
      extendBonds (fun i : Fin 0 => i.elim0) (fun _ => false)⟩, some (1/20000)),
    ?_, rfl, rfl, ?_⟩
  · unfold fit_atoms_to_grids
    rw [c3_points, c3_density]
    rw [@fitLoop_step_add 1 _ _ _ _ _ _ _ _ _ _ _ _ _ _ _ _ _ _
        ⟨0, fun i => i.elim0, fun i => i.elim0, fun i => i.elim0⟩ none
        (fun _ => (0:ℝ)) 0 (fun _ => false) hno1 c3_gna]
    rw [if_neg Bool.false_ne_true]
    rw [c3_gd0]
    rw [@fitLoop_step_reject 1 _ _ _ _ _ _ _ _ _ _ _ _ _ _ _ _ _ _
        ⟨0 + 1, Fin.snoc (fun i : Fin 0 => i.elim0) (fun _ => (0:ℝ)),
          Fin.snoc (fun i : Fin 0 => i.elim0) (0 : Fin 1),
          extendBonds (fun i : Fin 0 => i.elim0) (fun _ => false)⟩ _ hyes2]
    rfl
  · rw [c3_points, c3_density]
    exact c3_gd1

theorem argmaxD_le {nc : ℕ} [NeZero nc] (f : Fin nc → ℝ) (x : Fin nc) :
    f x ≤ f (argmaxD f) := by
  have key : ∀ (l : List (Fin nc)) (b : Fin nc),
      f b ≤ f (l.foldl (fun b i => if f b < f i then i else b) b)
      ∧ ∀ y ∈ l, f y ≤ f (l.foldl (fun b i => if f b < f i then i else b) b) := by
    intro l
    induction l with
    | nil => exact fun b => ⟨le_refl _, by simp⟩
    | cons a t ih =>
        intro b
        simp only [List.foldl_cons]
        obtain ⟨h1, h2⟩ := ih (if f b < f a then a else b)
        refine ⟨le_trans ?_ h1, ?_⟩
        · by_cases hba : f b < f a
          · rw [if_pos hba]
            exact le_of_lt hba
          · rw [if_neg hba]
        · intro y hy
          rcases List.mem_cons.mp hy with rfl | hy
          · refine le_trans ?_ h1
            by_cases hba : f b < f y
            · rw [if_pos hba]
            · rw [if_neg hba]
              exact le_of_not_lt hba
          · exact h2 y hy
  exact (key (List.finRange nc) _).2 x (List.mem_finRange x)

theorem argmax_indicator {nc : ℕ} [NeZero nc] (G d : Fin nc → ℝ) (P Q : Fin nc → Prop)
    (hG : ∀ ch, G ch = (if P ch then (1:ℝ) else 0) * (if Q ch then 1 else 0) * d ch)
    (ch₀ : Fin nc) (hP : P ch₀) (hQ : Q ch₀) (hd₀ : 0 < d ch₀) :
    P (argmaxD G) ∧ Q (argmaxD G) ∧ d ch₀ ≤ d (argmaxD G) := by
  have hle := argmaxD_le G ch₀
  rw [hG ch₀, hG (argmaxD G), if_pos hP, if_pos hQ, one_mul, one_mul] at hle
  by_cases hPc : P (argmaxD G)
  · by_cases hQc : Q (argmaxD G)
    · rw [if_pos hPc, if_pos hQc, one_mul, one_mul] at hle
      exact ⟨hPc, hQc, hle⟩
    · rw [if_neg hQc] at hle
      norm_num at hle
      linarith
  · rw [if_neg hPc] at hle
    norm_num at hle
    linarith

theorem gnaStep_invariant {nc n : ℕ} [NeZero nc] (xyz : Fin n → Pt) (c : Fin n → Fin nc)
    (radii : Fin nc → ℝ) (bd : Bool) (bonds : Fin n → Fin n → ℝ) (maxb : Fin nc → ℕ)
    (maxE : ℝ) (acc : Option (Pt × Fin nc × (Fin n → Bool)) × ℝ) (q : Pt × (Fin nc → ℝ))
    (hacc : gnaInv xyz c radii bd bonds maxb maxE acc) :
    gnaInv xyz c radii bd bonds maxb maxE (gnaStep xyz c radii bd bonds maxb maxE acc q) := by
  simp only [gnaStep]
  by_cases h1 : ∃ ch, q.2 ch > acc.2
  · rw [if_pos h1]
    by_cases h2 : n = 0
    · rw [if_pos h2]
      obtain ⟨ch₀, h₀⟩ := h1
      refine ⟨?_, ?_⟩
      · have hle := argmaxD_le q.2 ch₀
        have h00 := hacc.1
        dsimp only
        linarith
      · intro p' ch' bn' heq i
        subst h2
        exact i.elim0
    · rw [if_neg h2]
      by_cases h3 : ∃ ch, inRange xyz c radii bd bonds maxb maxE q.1 ch ∧ q.2 ch > acc.2
      · rw [if_pos h3]
        obtain ⟨cG, hcG⟩ : ∃ y, y = argmaxD fun ch =>
            (if inRange xyz c radii bd bonds maxb maxE q.1 ch
              then (1:ℝ) else 0) * (if q.2 ch > acc.2 then 1 else 0) * q.2 ch := ⟨_, rfl⟩
        rw [← hcG]
        obtain ⟨ch₀, hin₀, hd₀⟩ := h3
        have hfacts := argmax_indicator
          (fun ch => (if inRange xyz c radii bd bonds maxb maxE q.1 ch
              then (1:ℝ) else 0) * (if q.2 ch > acc.2 then 1 else 0) * q.2 ch)
          q.2 (inRange xyz c radii bd bonds maxb maxE q.1) (fun ch => q.2 ch > acc.2)
          (fun _ => rfl) ch₀ hin₀ hd₀ (lt_of_le_of_lt hacc.1 hd₀)
        rw [← hcG] at hfacts
        have hgt : q.2 cG > acc.2 := hfacts.2.1
        have hle : q.2 ch₀ ≤ q.2 cG := hfacts.2.2
        refine ⟨?_, ?_⟩
        · have h00 := hacc.1
          dsimp only
          linarith
        · intro p' ch' bn' heq i
          replace heq : some (q.1, cG, fun i => if bd = true then
              (if nearEnough xyz c radii bd maxE q.1 i cG ∧ canBond c bonds maxb i
                then true else false) else false) = some (p', ch', bn') := heq
          rw [Option.some.injEq, Prod.mk.injEq, Prod.mk.injEq] at heq
          obtain ⟨hp, hc, hb⟩ := heq
          subst hp
          subst hc
          subst hb
          refine ⟨?_, ?_⟩
          · intro hbn
            simp only [] at hbn
            by_cases hbd : bd = true
            · rw [if_pos hbd] at hbn
              by_cases hnc : nearEnough xyz c radii bd maxE q.1 i cG
                  ∧ canBond c bonds maxb i
              · exact hnc
              · rw [if_neg hnc] at hbn
                exact Bool.noConfusion hbn
            · rw [if_neg hbd] at hbn
              exact Bool.noConfusion hbn
          · exact hfacts.1.1 i
      · rw [if_neg h3]
        exact hacc
  · rw [if_neg h1]
    exact hacc

theorem gnaFold_invariant {nc n : ℕ} [NeZero nc] (xyz : Fin n → Pt) (c : Fin n → Fin nc)
    (radii : Fin nc → ℝ) (bd : Bool) (bonds : Fin n → Fin n → ℝ) (maxb : Fin nc → ℕ)
    (maxE : ℝ) (l : List (Pt × (Fin nc → ℝ)))
    (acc : Option (Pt × Fin nc × (Fin n → Bool)) × ℝ)
    (hacc : gnaInv xyz c radii bd bonds maxb maxE acc) :
    gnaInv xyz c radii bd bonds maxb maxE
      (l.foldl (gnaStep xyz c radii bd bonds maxb maxE) acc) := by
  induction l generalizing acc with
  | nil => exact hacc
  | cons a t ih =>
      rw [List.foldl_cons]
      exact ih _ (gnaStep_invariant xyz c radii bd bonds maxb maxE acc a hacc)

theorem c5_sqrt : Real.sqrt (1/25 : ℝ) = 1/5 := by
  rw [show (1/25:ℝ) = (1/5)^2 by norm_num, Real.sqrt_sq (by norm_num)]

theorem c5_dist2 : dist2 (gd1Vec (12/25)) gd1Point = 144/625 := by
  simp [dist2, gd1Vec, gd1Point, Fin.sum_univ_three]
  norm_num

theorem c5_near_num :
    (144/625 : ℝ) < ((1/10:ℝ) + 1/10) ^ 2 - Real.log (1 - Real.sqrt (1/25)) := by
  rw [c5_sqrt]
  have he : (-(119/625) : ℝ) + 1 < Real.exp (-(119/625)) :=
    Real.add_one_lt_exp (by norm_num)
  have hlog : Real.log (1 - 1/5 : ℝ) < -(119/625) := by
    rw [Real.log_lt_iff_lt_exp (by norm_num : (0:ℝ) < 1 - 1/5)]
    linarith
  have hsq : ((1/10:ℝ) + 1/10) ^ 2 = 1/25 := by norm_num
  rw [hsq]
  linarith

theorem c5_far_num :
    ((1/10:ℝ) + 1/10) ^ 2 - Real.log (1 + Real.sqrt (1/25)) < 144/625 := by
  rw [c5_sqrt]
  have hpos : 0 < Real.log (1 + 1/5 : ℝ) := Real.log_pos (by norm_num)
  have hsq : ((1/10:ℝ) + 1/10) ^ 2 = 1/25 := by norm_num
  rw [hsq]
  linarith

theorem c5_near (i : Fin 1) :
    nearEnough (fun _ : Fin 1 => gd1Point) (fun _ => (0 : Fin 1)) (fun _ => (1/10:ℝ))
      true (1/25) (gd1Vec (12/25)) i 0 := by
  unfold nearEnough maxBondLength2
  rw [if_pos rfl]
  simp only []
  rw [c5_dist2]
  exact c5_near_num

theorem c5_far (i : Fin 1) :
    farEnough (fun _ : Fin 1 => gd1Point) (fun _ => (0 : Fin 1)) (fun _ => (1/10:ℝ))
      true (1/25) (gd1Vec (12/25)) i 0 := by
  unfold farEnough distMin2
  rw [if_pos rfl]
  unfold minBondLength2
  simp only []
  rw [c5_dist2]
  exact c5_far_num

theorem c5_can (i : Fin 1) :
    canBond (fun _ => (0 : Fin 1)) (fun _ _ => (0:ℝ)) (fun _ => 4) i := by
  unfold canBond
  simp [Fin.sum_univ_one]

theorem c5_inRange :
    inRange (fun _ : Fin 1 => gd1Point) (fun _ => (0 : Fin 1)) (fun _ => (1/10:ℝ)) true
      (fun _ _ => (0:ℝ)) (fun _ => 4) (1/25) (gd1Vec (12/25)) 0 :=
  ⟨c5_far, 0, c5_near 0, c5_can 0⟩

theorem c5_gna_eval :
    get_next_atom (fun _ : Fin 1 => gd1Point) (fun _ => (0 : Fin 1)) (fun _ => (1/10:ℝ))
      true (fun _ _ => (0:ℝ)) (fun _ => 4) (1/25) [gd1Vec (12/25)] [fun _ => (1:ℝ)]
      = some (gd1Vec (12/25), 0, fun _ => true) := by
  unfold get_next_atom
  simp only [List.zip_cons_cons, List.zip_nil_left, List.foldl_cons, List.foldl_nil]
  simp only [gnaStep]
  rw [if_pos (⟨0, by norm_num⟩ : ∃ _ : Fin 1, (1:ℝ) > 0)]
  rw [if_neg (by norm_num : ¬(1 = 0))]
  rw [if_pos (⟨0, c5_inRange, by norm_num⟩ :
    ∃ ch : Fin 1, inRange (fun _ : Fin 1 => gd1Point) (fun _ => (0 : Fin 1))
      (fun _ => (1/10:ℝ)) true (fun _ _ => (0:ℝ)) (fun _ => 4) (1/25) (gd1Vec (12/25)) ch
      ∧ (1:ℝ) > 0)]
  rw [argmaxD_fin_one]
  simp only [if_true]
  have hbn : (fun i : Fin 1 =>
      if nearEnough (fun _ : Fin 1 => gd1Point) (fun _ => (0 : Fin 1)) (fun _ => (1/10:ℝ))
          true (1/25) (gd1Vec (12/25)) i 0
        ∧ canBond (fun _ => (0 : Fin 1)) (fun _ _ => (0:ℝ)) (fun _ => 4) i
        then true else false) = fun _ => true := by
    funext i
    rw [if_pos ⟨c5_near i, c5_can i⟩]
  rw [hbn]

/-- C5 (amended): in bonded mode, `get_next_atom` records a bond from the
accepted candidate to an existing atom `i` only if atom `i`'s bond count is
strictly below its channel's maximum AND the SQUARED candidate-to-atom
distance lies in the window
`((r_i + r_new)^2 - log(1 + sqrt maxE), (r_i + r_new)^2 - log(1 - sqrt maxE))`
— the source applies the log-window to `dist**2` (lines 387-388, 407), not to
the distance obtained by inverting the bond energy model
`(1 - exp((r_i + r_new) - d))^2 <= maxE`. -/
theorem get_next_atom_bonded_window {nc n : ℕ} [NeZero nc] (xyz : Fin n → Pt)
    (c : Fin n → Fin nc) (radii : Fin nc → ℝ) (bonds : Fin n → Fin n → ℝ)
    (maxb : Fin nc → ℕ) (maxE : ℝ) (points : List Pt) (density : List (Fin nc → ℝ))
    (p : Pt) (ch : Fin nc) (bn : Fin n → Bool)
    (hgna : get_next_atom xyz c radii true bonds maxb maxE points density
      = some (p, ch, bn)) (i : Fin n) (hbn : bn i = true) :
    (∑ j, bonds i j) < (maxb (c i) : ℝ)
    ∧ (radii (c i) + radii ch) ^ 2 - Real.log (1 + Real.sqrt maxE) < dist2 p (xyz i)
    ∧ dist2 p (xyz i) < (radii (c i) + radii ch) ^ 2 - Real.log (1 - Real.sqrt maxE) := by
  have hinv := gnaFold_invariant xyz c radii true bonds maxb maxE (points.zip density)
    (none, 0) ⟨le_refl 0, fun p' ch' bn' h => Option.noConfusion h⟩
  unfold get_next_atom at hgna
  have h3 := hinv.2 p ch bn hgna
  obtain ⟨hnear, hcan⟩ := (h3 i).1 hbn
  have hfar := (h3 i).2
  exact ⟨hcan, hfar, hnear⟩

/-- Witness for `get_next_atom_bonded_window` at a concrete bonded run: one
existing atom of radius `1/10` at the origin, candidate at distance `12/25`,
`maxE = 1/25`. -/
theorem get_next_atom_bonded_window_witness :
    (∑ j : Fin 1, (0:ℝ)) < ((4:ℕ):ℝ)
    ∧ ((1/10:ℝ) + 1/10) ^ 2 - Real.log (1 + Real.sqrt (1/25))
        < dist2 (gd1Vec (12/25)) gd1Point
    ∧ dist2 (gd1Vec (12/25)) gd1Point
        < ((1/10:ℝ) + 1/10) ^ 2 - Real.log (1 - Real.sqrt (1/25)) :=
  get_next_atom_bonded_window (fun _ : Fin 1 => gd1Point) (fun _ => (0 : Fin 1))
    (fun _ => (1/10:ℝ)) (fun _ _ => (0:ℝ)) (fun _ => 4) (1/25) [gd1Vec (12/25)]
    [fun _ => (1:ℝ)] (gd1Vec (12/25)) 0 (fun _ => true) c5_gna_eval 0 rfl

/-- Counterexample to C5 as stated: in the concrete bonded run of
`c5_gna_eval` the scan records a bond to the existing atom (`bn 0 = true`),
yet the bond energy model at the actual distance `12/25` and ideal length
`1/5` gives `(1 - exp(1/5 - 12/25))^2 > 1/25 = max_init_bond_E`: the recorded
bond violates the claimed energy-threshold condition, because the source
subtracts the log terms from the SQUARED length. -/
theorem get_next_atom_bond_energy_counterexample :
    ∃ bn : Fin 1 → Bool,
      get_next_atom (fun _ : Fin 1 => gd1Point) (fun _ => (0 : Fin 1)) (fun _ => (1/10:ℝ))
          true (fun _ _ => (0:ℝ)) (fun _ => 4) (1/25) [gd1Vec (12/25)] [fun _ => (1:ℝ)]
        = some (gd1Vec (12/25), 0, bn)
      ∧ bn 0 = true
      ∧ ¬ get_bond_length_energy (Real.sqrt (dist2 (gd1Vec (12/25)) gd1Point))
            ((1/10 : ℝ) + 1/10) 1 ≤ 1/25 := by
  refine ⟨fun _ => true, c5_gna_eval, rfl, ?_⟩
  rw [c5_dist2]
  have hs : Real.sqrt (144/625 : ℝ) = 12/25 := by
    rw [show (144/625:ℝ) = (12/25)^2 by norm_num, Real.sqrt_sq (by norm_num)]
  rw [hs]
  unfold get_bond_length_energy
  have harg : ((1/10:ℝ) + 1/10) - 12/25 = -(7/25) := by norm_num
  rw [harg]
  have he : (7/25 : ℝ) + 1 < Real.exp (7/25) := Real.add_one_lt_exp (by norm_num)
  have hlt : Real.exp (-(7/25) : ℝ) < 25/32 := by
    rw [Real.exp_neg]
    have h32 : (32/25:ℝ) < Real.exp (7/25) := by linarith
    have hinv : (Real.exp (7/25))⁻¹ < ((32:ℝ)/25)⁻¹ := by
      apply inv_strictAnti₀ (by norm_num) h32
    calc (Real.exp (7/25))⁻¹ < ((32:ℝ)/25)⁻¹ := hinv
    _ = 25/32 := by norm_num
  intro hcon
  rw [mul_one] at hcon
  have h1e : (1:ℝ) - Real.exp (-(7/25)) > 1/5 := by linarith
  nlinarith [h1e, hcon]

/-- Witness for `fit_atoms_to_grids_deconv_fit_no_effect` at a concrete
single-voxel configuration. -/
theorem fit_atoms_to_grids_deconv_fit_no_effect_witness :
    fit_atoms_to_grids 1 ((fun _ _ _ _ => (1:ℝ)) : Fin 1 → Fin 1 → Fin 1 → Fin 1 → ℝ)
        (fun _ => 1) (fun _ => 4) (fun _ => 0) 1 0 (3/2) 0 true 0 1 false false (1/2) 1
      = fit_atoms_to_grids 1 ((fun _ _ _ _ => (1:ℝ)) : Fin 1 → Fin 1 → Fin 1 → Fin 1 → ℝ)
        (fun _ => 1) (fun _ => 4) (fun _ => 0) 1 0 (3/2) 0 false 0 1 false false (1/2) 1 :=
  fit_atoms_to_grids_deconv_fit_no_effect 1
    ((fun _ _ _ _ => (1:ℝ)) : Fin 1 → Fin 1 → Fin 1 → Fin 1 → ℝ) (fun _ => 1) (fun _ => 4)
    (fun _ => 0) 1 0 (3/2) 0 0 1 false false (1/2) 1

/-- Witness for `fit_atoms_to_grids_zero_grid` at a concrete single-voxel
single-channel configuration. -/
theorem fit_atoms_to_grids_zero_grid_witness :
    fit_atoms_to_grids 1 ((fun _ _ _ _ => (0:ℝ)) : Fin 1 → Fin 1 → Fin 1 → Fin 1 → ℝ)
        (fun _ => 1) (fun _ => 4) (fun _ => 0) 1 0 (3/2) 0 false 0 1 false false (1/2) 1
      = some (⟨0, fun i => i.elim0, fun i => i.elim0, fun i => i.elim0⟩, some 0)
    ∧ (∀ mi, fit_atoms_by_GD (get_grid_points 1 (fun _ => 0) 1)
          (gridToList 1 1 fun _ _ _ _ => 0) (fun i : Fin 0 => i.elim0)
          (fun i : Fin 0 => i.elim0) (fun _ => (1:ℝ)) (3/2) (1/100) (9/10) 0 1
          (fun i => i.elim0) mi
        = fit_atoms_by_GD (get_grid_points 1 (fun _ => 0) 1)
          (gridToList 1 1 fun _ _ _ _ => 0) (fun i : Fin 0 => i.elim0)
          (fun i : Fin 0 => i.elim0) (fun _ => (1:ℝ)) (3/2) (1/100) (9/10) 0 1
          (fun i => i.elim0) 0)
    ∧ (fit_atoms_by_GD (get_grid_points 1 (fun _ => 0) 1)
          (gridToList 1 1 fun _ _ _ _ => 0) (fun i : Fin 0 => i.elim0)
          (fun i : Fin 0 => i.elim0) (fun _ => (1:ℝ)) (3/2) (1/100) (9/10) 0 1
          (fun i => i.elim0) 0).2.2 = 0 :=
  fit_atoms_to_grids_zero_grid 1 (fun _ => 1) (fun _ => 4) (fun _ => 0) 1 0 (3/2) 0 false 0 1
    false false (1/2) 0
